import Mathlib

/-!
Shallow embedding of the `superposition` JavaScript library
(src/core/Complex.js, src/core/QuantumState.js, src/core/Entanglement.js,
src/operators/Interference.js, src/operators/QuantumGates.js,
src/control/QuantumLoops.js, src/control/QuantumConditionals.js).

Modelling conventions:
* JS `number` (IEEE double) is modelled as `ℝ`; the `Number.isFinite` guards are
  therefore always satisfied and are noted in comments where they occur.
* A JS `Map` is modelled as an insertion-ordered association list with unique
  keys; `Map.set` replaces in place, `Map.delete` filters, iteration follows
  list order.
* A method that can `throw` returns `Except`.  Where a claim is about the state
  of the object at throw time, the error value carries the object as it is at
  the moment of the throw (JS exceptions do not roll mutations back).
* `Math.random()` is modelled as reading one value from an explicit stream
  `ℕ → ℝ` at a cursor; an operation that draws a sample advances the cursor.
* `Date.now()` timestamps on audit records are environmental and carry no
  program information; history records keep the result, reason and
  pre-measurement distribution fields.
-/

namespace QJS

noncomputable section

open Classical

/-- Complex amplitude (src/core/Complex.js).  The constructor's finiteness
check on both components always passes over `ℝ`. -/
structure Complex where
  re : ℝ
  im : ℝ

/-- Source `Complex.zero()` -/
def Complex.zero : Complex := ⟨0, 0⟩

/-- Source `z1 + z2` -/
def Complex.add (z w : Complex) : Complex := ⟨z.re + w.re, z.im + w.im⟩

/-- Source `z1 - z2` -/
def Complex.subtract (z w : Complex) : Complex := ⟨z.re - w.re, z.im - w.im⟩

/-- Source `(a+bi)(c+di) = (ac-bd) + (ad+bc)i` -/
def Complex.multiply (z w : Complex) : Complex :=
  ⟨z.re * w.re - z.im * w.im, z.re * w.im + z.im * w.re⟩

/-- Scalar multiplication `scale(r)`; the finiteness check on `r` always
passes over `ℝ`. -/
def Complex.scale (z : Complex) (r : ℝ) : Complex := ⟨z.re * r, z.im * r⟩

/-- Source `|z|^2 = a^2 + b^2` (`magnitudeSquared`). -/
def Complex.magnitudeSquared (z : Complex) : ℝ := z.re * z.re + z.im * z.im

/-- Source `Math.hypot(re, im)` (`magnitude`). -/
def Complex.magnitude (z : Complex) : ℝ := Real.sqrt (z.re * z.re + z.im * z.im)

/-- Source `equals(other, epsilon)`: componentwise comparison within `epsilon`. -/
def Complex.equalsEps (z w : Complex) (eps : ℝ) : Prop :=
  |z.re - w.re| ≤ eps ∧ |z.im - w.im| ≤ eps

/-- Source `conjugate()` -/
def Complex.conjugate (z : Complex) : Complex := ⟨z.re, -z.im⟩

/-- Source `Complex.fromPolar(r, θ)`; the callers in scope pass `r = 1`, so the
negative-magnitude guard is omitted. -/
def Complex.fromPolar (r θ : ℝ) : Complex := ⟨r * Real.cos θ, r * Real.sin θ⟩

/-- Source `AMPLITUDE_PRUNE_EPSILON = 1e-12` -/
def AMPLITUDE_PRUNE_EPSILON : ℝ := 1 / 10 ^ 12

/-- Source `NORMALIZATION_EPSILON = 1e-15` -/
def NORMALIZATION_EPSILON : ℝ := 1 / 10 ^ 15

/-- Interference's `PRUNE_EPSILON = 1e-12` -/
def PRUNE_EPSILON : ℝ := 1 / 10 ^ 12

/-- Source `Number.EPSILON = 2^-52` -/
def NumberEPSILON : ℝ := 1 / 2 ^ 52

/-- The JS error classes that the library throws. -/
inductive QError where
  | typeError (msg : String)
  | rangeError (msg : String)
  | stateError (msg : String)
deriving DecidableEq

/-- One record of `measurementHistory` (timestamp omitted, see header note). -/
structure HistoryEntry (K : Type) where
  result : K
  reason : String
  preMeasurementProbs : List (K × ℝ)

/-- Source `QuantumState` (src/core/QuantumState.js).  The `entanglements` set is
modelled separately at the two-state world level (`EWorld`). -/
structure QuantumState (K : Type) where
  basis : List (K × Complex)
  isCollapsed : Bool
  collapsedValue : Option K
  measurementHistory : List (HistoryEntry K)

variable {K : Type} [DecidableEq K]
variable {K1 : Type} [DecidableEq K1]
variable {K2 : Type} [DecidableEq K2]

/-- Source `Map.get(k)` on an insertion-ordered association list. -/
def mapGet (m : List (K × Complex)) (k : K) : Option Complex :=
  (m.find? (fun p => decide (p.1 = k))).map (·.2)

/-- Source `Map.set(k, v)`: replace in place if the key exists, else append. -/
def mapSet (m : List (K × Complex)) (k : K) (v : Complex) : List (K × Complex) :=
  if m.any (fun p => decide (p.1 = k)) then
    m.map (fun p => if p.1 = k then (k, v) else p)
  else m ++ [(k, v)]

/-- Total probability loop of `normalize()`:
`for (amplitude of basis.values()) total += amplitude.magnitudeSquared()`. -/
def sumMagnitudeSquared (m : List (K × Complex)) : ℝ :=
  m.foldl (fun acc p => acc + p.2.magnitudeSquared) 0

/-- The delete-while-iterating loop of `_pruneNearZeroAmplitudes()`:
entries with `magnitude() < AMPLITUDE_PRUNE_EPSILON` are removed. -/
def pruneFilter (m : List (K × Complex)) : List (K × Complex) :=
  m.filter (fun p => !decide (p.2.magnitude < AMPLITUDE_PRUNE_EPSILON))

/-- Source `_pruneNearZeroAmplitudes()`: prune, then throw if the basis emptied.
The error carries the (emptied) basis state of the object. -/
def pruneNearZeroAmplitudes (m : List (K × Complex)) :
    Except QError (List (K × Complex)) :=
  let m' := pruneFilter m
  if m' = [] then
    .error (.stateError "Quantum state has no non-zero amplitudes after pruning.")
  else .ok m'

/-- Source `_updateCollapsedFlags()`: with exactly one entry, collapsed iff the
amplitude `equals(new Complex(1,0))` within the default `1e-12`. -/
def updateCollapsedFlags (m : List (K × Complex)) : Bool × Option K :=
  match m with
  | [(k, a)] =>
      if Complex.equalsEps a ⟨1, 0⟩ (1 / 10 ^ 12) then (true, some k) else (false, none)
  | _ => (false, none)

/-- Source `normalize()` (src/core/QuantumState.js lines 46-65): total probability,
degenerate-state check (the `Number.isFinite` disjunct always passes over
`ℝ`), scaling by `1/√total`, re-prune, flag recomputation.  The entanglement
notification is a no-op for a state with no correlations and is modelled at
the `EWorld` level.  Errors carry the object as mutated at throw time. -/
def QuantumState.normalize (s : QuantumState K) :
    Except (QError × QuantumState K) (QuantumState K) :=
  let total := sumMagnitudeSquared s.basis
  if total ≤ NORMALIZATION_EPSILON then
    .error (.stateError "Quantum state collapsed to zero probability mass.", s)
  else
    let norm := Real.sqrt total
    let scaled := s.basis.map (fun p => (p.1, p.2.scale (1 / norm)))
    let pruned := pruneFilter scaled
    if pruned = [] then
      .error (.stateError "Quantum state has no non-zero amplitudes after pruning.",
        { s with basis := pruned })
    else
      let fc := updateCollapsedFlags pruned
      .ok { s with basis := pruned, isCollapsed := fc.1, collapsedValue := fc.2 }

/-- Constructor accumulation loop: duplicate keys merge by complex addition
(`current = basis.get(value) || zero; basis.set(value, current.add(amp))`). -/
def accumulateBasis (entries : List (K × Complex)) : List (K × Complex) :=
  entries.foldl (fun m e => mapSet m e.1 (((mapGet m e.1).getD Complex.zero).add e.2)) []

/-- Source `new QuantumState(basis)`: empty-input check, per-entry validation (the
type checks are enforced by typing here), accumulation, prune, normalize. -/
def QuantumState.construct (entries : List (K × Complex)) :
    Except QError (QuantumState K) :=
  if entries = [] then
    .error (.rangeError "QuantumState basis must contain at least one state.")
  else
    match pruneNearZeroAmplitudes (accumulateBasis entries) with
    | .error e => .error e
    | .ok m =>
      match QuantumState.normalize ⟨m, false, none, []⟩ with
      | .error e => .error e.1
      | .ok s => .ok s

/-- Source `getProbabilities()` -/
def QuantumState.getProbabilities (s : QuantumState K) : List (K × ℝ) :=
  s.basis.map (fun p => (p.1, p.2.magnitudeSquared))

/-- Source `getAmplitude(value)`: zero if absent. -/
def QuantumState.getAmplitude (s : QuantumState K) (k : K) : Complex :=
  (mapGet s.basis k).getD Complex.zero

/-- Source `setAmplitude(value, amplitude)` (lines 93-106): the `instanceof Complex`
check is enforced by typing; then the basis is overwritten (`basis.set`),
pruned in place (which throws with the basis already emptied if everything
was pruned; the subsequent explicit `size === 0` re-check is unreachable),
and normalized.  Errors carry the object as mutated at throw time. -/
def QuantumState.setAmplitude (s : QuantumState K) (k : K) (a : Complex) :
    Except (QError × QuantumState K) (QuantumState K) :=
  let s1 : QuantumState K := { s with basis := mapSet s.basis k a }
  let filtered := pruneFilter s1.basis
  if filtered = [] then
    .error (.stateError "Quantum state has no non-zero amplitudes after pruning.",
      { s1 with basis := filtered })
  else
    QuantumState.normalize { s1 with basis := filtered }

/-- Source `stabilize()`: re-prune then renormalize. -/
def QuantumState.stabilize (s : QuantumState K) :
    Except (QError × QuantumState K) (QuantumState K) :=
  let filtered := pruneFilter s.basis
  if filtered = [] then
    .error (.stateError "Quantum state has no non-zero amplitudes after pruning.",
      { s with basis := filtered })
  else
    QuantumState.normalize { s with basis := filtered }

/-- Source `collapseTo(value, metadata)` (lines 217-238): not-a-member check, basis
replacement by the single entry `value → (1,0)`, flag update, audit append.
The entangled-state notification is modelled at the `EWorld` level. -/
def QuantumState.collapseTo (s : QuantumState K) (k : K) (reason : String)
    (pre : Option (List (K × ℝ))) :
    Except (QError × QuantumState K) (QuantumState K) :=
  if (mapGet s.basis k).isSome then
    .ok { basis := [(k, ⟨1, 0⟩)], isCollapsed := true, collapsedValue := some k,
          measurementHistory :=
            s.measurementHistory ++ [⟨k, reason, pre.getD s.getProbabilities⟩] }
  else
    .error (.rangeError "Cannot collapse to a value not present in the basis.", s)

/-- The cumulative walk of `measure()`:
`cumulative += p; if (rand <= cumulative) pick`. -/
def bornWalk (probs : List (K × ℝ)) (rand cum : ℝ) : Option K :=
  match probs with
  | [] => none
  | p :: rest => if rand ≤ cum + p.2 then some p.1 else bornWalk rest rand (cum + p.2)

/-- Source `measure()` (lines 178-209).  `Math.random()` is modelled by reading
`randomStream cursor`; an uncollapsed call advances the cursor by one, a
collapsed call returns the stored value without touching the stream.  The
`undefined` guard falls back to the last basis key; with an empty basis the
subsequent `collapseTo(undefined)` throws the not-a-member error. -/
def QuantumState.measure (s : QuantumState K) (randomStream : ℕ → ℝ) (cursor : ℕ) :
    Except (QError × QuantumState K) (Option K × QuantumState K × ℕ) :=
  if s.isCollapsed then .ok (s.collapsedValue, s, cursor)
  else
    let probabilities := s.getProbabilities
    let rand := randomStream cursor
    let measuredValue :=
      match bornWalk probabilities rand 0 with
      | some v => some v
      | none => s.basis.getLast?.map (·.1)
    match measuredValue with
    | none =>
      .error (.rangeError "Cannot collapse to a value not present in the basis.", s)
    | some v =>
      match s.collapseTo v "measurement" (some probabilities) with
      | .error e => .error e
      | .ok s' => .ok (some v, s', cursor + 1)

/-- Source `clone()`: rebuild through the constructor from a value copy of the basis,
then overwrite the collapsed flags and copy the measurement history.  The
clone starts with no correlations. -/
def QuantumState.clone (s : QuantumState K) : Except QError (QuantumState K) :=
  match QuantumState.construct s.basis with
  | .error e => .error e
  | .ok c =>
    .ok { c with
          isCollapsed := s.isCollapsed
          collapsedValue := s.collapsedValue
          measurementHistory := s.measurementHistory }

/-- The `Set` of all basis values across the inputs, in first-insertion
order (`Interference.interfere` union loop). -/
def unionValues (qstates : List (QuantumState K)) : List K :=
  qstates.foldl
    (fun acc s => s.basis.foldl (fun acc2 p => if p.1 ∈ acc2 then acc2 else acc2 ++ [p.1]) acc)
    []

/-- Source `Interference._resolveWeights(size, weights)` (lines 129-152): default
uniform `1/√size`; explicit weights length-checked, finiteness always passes
over `ℝ`, all-zero check against `Number.EPSILON`, then normalized to unit
sum of squares. -/
def resolveWeights (size : ℕ) (weights : Option (List ℝ)) : Except QError (List ℝ) :=
  match weights with
  | none => .ok (List.replicate size (1 / Real.sqrt size))
  | some ws =>
    if ws.length ≠ size then
      .error (.rangeError "weights must be an array of matching length.")
    else
      let sumSquares := ws.foldl (fun acc w => acc + w * w) 0
      if sumSquares ≤ NumberEPSILON then
        .error (.rangeError "weights must not all be zero.")
      else .ok (ws.map (fun w => w / Real.sqrt sumSquares))

/-- The per-value weighted sum of `Interference.interfere`:
`total = Σ_index amplitude_index(value).scale(weight_index)`. -/
def interfereTotal (qstates : List (QuantumState K)) (ws : List ℝ) (v : K) : Complex :=
  (qstates.zip ws).foldl (fun acc sw => acc.add ((sw.1.getAmplitude v).scale sw.2))
    Complex.zero

/-- The per-value body of `Interference.interfere`'s union loop: the weighted
amplitude sum is kept only when `magnitude() > PRUNE_EPSILON`. -/
def interfereKeep (qstates : List (QuantumState K)) (ws : List ℝ) (v : K) :
    Option (K × Complex) :=
  let total := interfereTotal qstates ws v
  if total.magnitude > PRUNE_EPSILON then some (v, total) else none

/-- Source `Interference.interfere(qstates, weights)` (lines 22-63): empty-input and
element-type checks (the latter enforced by typing), weight resolution, union
of basis values, weighted amplitude sums kept only when
`magnitude() > PRUNE_EPSILON`, degenerate-state check, then construction. -/
def Interference.interfere (qstates : List (QuantumState K)) (weights : Option (List ℝ)) :
    Except QError (QuantumState K) :=
  if qstates = [] then
    .error (.rangeError "Interference.interfere requires a non-empty array of QuantumState instances.")
  else
    match resolveWeights qstates.length weights with
    | .error e => .error e
    | .ok ws =>
      let basis := (unionValues qstates).filterMap (interfereKeep qstates ws)
      if basis = [] then
        .error (.stateError "Interference cancelled all amplitudes to zero.")
      else QuantumState.construct basis

/-- Source `QuantumGates.hadamard` (QuantumGates.js lines 18-38): requires exactly 2
basis states; with unique map keys `getAmplitude` returns the stored
amplitudes of the two entries. -/
def QuantumGates.hadamard (s : QuantumState K) : Except QError (QuantumState K) :=
  match s.basis with
  | [(v0, a0), (v1, a1)] =>
    QuantumState.construct
      [(v0, (a0.add a1).scale (1 / Real.sqrt 2)), (v1, (a0.subtract a1).scale (1 / Real.sqrt 2))]
  | _ => .error (.rangeError "Hadamard requires exactly 2 basis states.")

/-- Source `QuantumGates.phase(qstate, targetValue, phaseAngle)` (lines 49-70): the
finiteness check on the angle always passes over `ℝ`; not-a-member check on
the target; target amplitude multiplied by `exp(iθ)`. -/
def QuantumGates.phase (s : QuantumState K) (target : K) (phaseAngle : ℝ) :
    Except QError (QuantumState K) :=
  if (mapGet s.basis target).isSome then
    let pf := Complex.fromPolar 1 phaseAngle
    QuantumState.construct
      (s.basis.map (fun p => if p.1 = target then (p.1, p.2.multiply pf) else p))
  else .error (.rangeError "Target value does not exist in quantum basis.")

/-- Source `QuantumGates.rotate(qstate, angle)` (lines 80-94). -/
def QuantumGates.rotate (s : QuantumState K) (angle : ℝ) : Except QError (QuantumState K) :=
  QuantumState.construct (s.basis.map (fun p => (p.1, p.2.multiply (Complex.fromPolar 1 angle))))

/-- Source `QuantumGates.amplify(qstate, targetValues, factor)` (lines 105-133):
factor must be `> 0`, target collection non-empty, at least one target in the
basis; matching amplitudes scaled by `factor` then rebuilt. -/
def QuantumGates.amplify (s : QuantumState K) (targets : List K) (factor : ℝ) :
    Except QError (QuantumState K) :=
  if factor ≤ 0 then
    .error (.rangeError "Amplification factor must be a finite number > 0.")
  else if targets = [] then
    .error (.rangeError "targetValues must contain at least one value.")
  else if s.basis.all (fun p => decide (p.1 ∉ targets)) then
    .error (.rangeError "None of the targetValues exist in the quantum basis.")
  else
    QuantumState.construct
      (s.basis.map (fun p => if p.1 ∈ targets then (p.1, p.2.scale factor) else p))

/-- A branch/body result: either a `QuantumState` or a plain value
(`_coerceResultState` / `_coerceToState` wrap the latter). -/
inductive BranchResult (K : Type) where
  | state (s : QuantumState K)
  | value (v : K)

/-- Source `_coerceResultState(result)`: a plain value becomes the deterministic
single-outcome state through the constructor. -/
def coerceResultState (r : BranchResult K) : Except QError (QuantumState K) :=
  match r with
  | .state s => .ok s
  | .value v => QuantumState.construct [(v, ⟨1, 0⟩)]

/-- The shared merge step: each branch-result amplitude is multiplied by the
input amplitude and accumulated into the combined map by complex addition. -/
def mergeInto (combined : List (K2 × Complex)) (inAmp : Complex)
    (branch : QuantumState K2) : List (K2 × Complex) :=
  branch.basis.foldl
    (fun acc p => mapSet acc p.1 (((mapGet acc p.1).getD Complex.zero).add (p.2.multiply inAmp)))
    combined

/-- Source `_buildStateFromMap(map, operation)`: empty-result check, then the
constructor. -/
def buildStateFromMap (m : List (K × Complex)) (operation : String) :
    Except QError (QuantumState K) :=
  if m = [] then
    .error (.stateError (operation ++ " produced an empty superposition."))
  else QuantumState.construct m

/-- The combined map of `QuantumConditionals.quantumIf` (QuantumConditionals
lines 184-206); `truthy` models JS truthiness of the condition's outcome
values (`conditionValue ? thenBranch : elseBranch`). -/
def quantumIfCombined (truthy : K1 → Bool) (condition : QuantumState K1)
    (thenBranch elseBranch : K1 → BranchResult K2) :
    Except QError (List (K2 × Complex)) :=
  condition.basis.foldlM (fun acc p => do
    let bs ← coerceResultState (if truthy p.1 then thenBranch p.1 else elseBranch p.1)
    pure (mergeInto acc p.2 bs)) []

/-- Source `QuantumConditionals.quantumIf(condition, thenBranch, elseBranch)`. -/
def QuantumConditionals.quantumIf (truthy : K1 → Bool) (condition : QuantumState K1)
    (thenBranch elseBranch : K1 → BranchResult K2) : Except QError (QuantumState K2) := do
  let combined ← quantumIfCombined truthy condition thenBranch elseBranch
  buildStateFromMap combined "quantumIf"

/-- The combined map of `QuantumConditionals.quantumSwitch` (lines 219-251):
`cases` is the case table (`none` when a value has no own property), with the
optional default; outcomes resolving to no handler are silently dropped. -/
def quantumSwitchCombined (qstate : QuantumState K1)
    (cases : K1 → Option (K1 → BranchResult K2))
    (defaultCase : Option (K1 → BranchResult K2)) :
    Except QError (List (K2 × Complex)) :=
  qstate.basis.foldlM (fun acc p =>
    match (cases p.1).orElse (fun _ => defaultCase) with
    | none => pure acc
    | some handler => do
      let bs ← coerceResultState (handler p.1)
      pure (mergeInto acc p.2 bs)) []

/-- Source `QuantumConditionals.quantumSwitch(qstate, cases, defaultCase)`. -/
def QuantumConditionals.quantumSwitch (qstate : QuantumState K1)
    (cases : K1 → Option (K1 → BranchResult K2))
    (defaultCase : Option (K1 → BranchResult K2)) : Except QError (QuantumState K2) := do
  let combined ← quantumSwitchCombined qstate cases defaultCase
  buildStateFromMap combined "quantumSwitch"

/-- The combined map of `QuantumLoops._applyBodyToState` (QuantumLoops.js
lines 100-115). -/
def applyBodyToStateCombined (bodyFn : K → ℕ → BranchResult K)
    (s : QuantumState K) (iteration : ℕ) : Except QError (List (K × Complex)) :=
  s.basis.foldlM (fun acc p => do
    let bs ← coerceResultState (bodyFn p.1 iteration)
    pure (mergeInto acc p.2 bs)) []

/-- Source `QuantumLoops._applyBodyToState(state, iteration, bodyFn)`. -/
def applyBodyToState (bodyFn : K → ℕ → BranchResult K) (s : QuantumState K)
    (iteration : ℕ) : Except QError (QuantumState K) := do
  let combined ← applyBodyToStateCombined bodyFn s iteration
  buildStateFromMap combined "quantumFor"

/-- The combined map of `QuantumLoops._applyConditionalBody` (lines 117-138):
outcomes failing the condition pass through unchanged (still accumulated by
complex addition), passing outcomes are routed through the body. -/
def applyConditionalBodyCombined (condition : K → Bool) (bodyFn : K → ℕ → BranchResult K)
    (s : QuantumState K) (iteration : ℕ) : Except QError (List (K × Complex)) :=
  s.basis.foldlM (fun acc p =>
    if condition p.1 then do
      let bs ← coerceResultState (bodyFn p.1 iteration)
      pure (mergeInto acc p.2 bs)
    else
      pure (mapSet acc p.1 (((mapGet acc p.1).getD Complex.zero).add p.2))) []

/-- Source `QuantumLoops._applyConditionalBody(state, iteration, condition, bodyFn)`. -/
def applyConditionalBody (condition : K → Bool) (bodyFn : K → ℕ → BranchResult K)
    (s : QuantumState K) (iteration : ℕ) : Except QError (QuantumState K) := do
  let combined ← applyConditionalBodyCombined condition bodyFn s iteration
  buildStateFromMap combined "quantumWhile"

/-- Result record of `quantumFor`. -/
structure ForResult (K : Type) where
  finalState : QuantumState K
  history : List (QuantumState K)

/-- The `for` loop of `quantumFor`, by recursion on the remaining iteration
count; `index` is the loop counter. -/
def quantumForAux (bodyFn : K → ℕ → BranchResult K) :
    QuantumState K → List (QuantumState K) → ℕ → ℕ → Except QError (ForResult K)
  | s, hist, _, 0 => .ok ⟨s, hist⟩
  | s, hist, index, n + 1 => do
    let s' ← applyBodyToState bodyFn s index
    let c ← s'.clone
    quantumForAux bodyFn s' (hist ++ [c]) (index + 1) n

/-- Source `QuantumLoops.quantumFor(iterations, initialState, bodyFn)` (lines
17-40); `iterations : ℕ` captures the non-negative-integer check, the
remaining type checks are enforced by typing. -/
def QuantumLoops.quantumFor (iterations : ℕ) (initialState : QuantumState K)
    (bodyFn : K → ℕ → BranchResult K) : Except QError (ForResult K) := do
  let cur ← initialState.clone
  let h0 ← cur.clone
  quantumForAux bodyFn cur [h0] 0 iterations

/-- Result record of `quantumWhile`. -/
structure WhileResult (K : Type) where
  finalState : QuantumState K
  history : List (QuantumState K)
  iterations : ℕ
  terminatedByMaxIterations : Bool

/-- The `while (iteration < maxIterations)` loop of `quantumWhile`, by
recursion on the remaining fuel `maxIterations - iteration`. -/
def quantumWhileAux (condition : K → Bool) (bodyFn : K → ℕ → BranchResult K) :
    QuantumState K → List (QuantumState K) → ℕ → ℕ → Except QError (WhileResult K)
  | s, hist, iteration, 0 => .ok ⟨s, hist, iteration, true⟩
  | s, hist, iteration, fuel + 1 =>
    if s.basis.any (fun p => condition p.1) then do
      let s' ← applyConditionalBody condition bodyFn s iteration
      let c ← s'.clone
      quantumWhileAux condition bodyFn s' (hist ++ [c]) (iteration + 1) fuel
    else .ok ⟨s, hist, iteration, false⟩

/-- Source `QuantumLoops.quantumWhile(condition, bodyFn, initialState, maxIterations)`
(lines 51-98); `maxIterations : ℕ` captures the non-negative-integer check. -/
def QuantumLoops.quantumWhile (condition : K → Bool) (bodyFn : K → ℕ → BranchResult K)
    (initialState : QuantumState K) (maxIterations : ℕ) : Except QError (WhileResult K) := do
  let cur ← initialState.clone
  let h0 ← cur.clone
  quantumWhileAux condition bodyFn cur [h0] 0 maxIterations

/-- Which of the two endpoint states of an `Entanglement` originated a
notification (`source === this.state1` identity comparisons). -/
inductive Endpoint where
  | src
  | tgt
deriving DecidableEq

/-- The two-state world of one `Entanglement` (src/core/Entanglement.js):
`state1` is the source, `state2` the target, `isActive` the disposal flag.
The relation function returns `none` where JS returns `undefined`. -/
structure EWorld (K1 K2 : Type) where
  state1 : QuantumState K1
  state2 : QuantumState K2
  isActive : Bool

/-- Source `_collapseState2(value)` (Entanglement.js lines 112-129): if the value is
present collapse through `collapseTo` (whose entangled-state notification
`onMeasurement(state2, ...)` fails its `measuredState === state1` guard and
does nothing); otherwise inject the value as the sole deterministic entry,
with direct field writes and an audit record with an empty distribution. -/
def collapseState2 (w : EWorld K1 K2) (v : K2) : EWorld K1 K2 :=
  if (mapGet w.state2.basis v).isSome then
    match w.state2.collapseTo v "entanglement-collapse" none with
    | .ok s2' => { w with state2 := s2' }
    | .error _ => w   -- unreachable: the membership test succeeded
  else
    { w with state2 :=
        { basis := [(v, ⟨1, 0⟩)], isCollapsed := true, collapsedValue := some v,
          measurementHistory :=
            w.state2.measurementHistory ++ [⟨v, "entanglement-collapse", []⟩] } }

/-- Source `updateEntanglement(source)` (lines 43-77): inactive and
`source !== state1` guards; collapsed-source propagation through the relation
(error when the relation yields `undefined`, including on an unset collapsed
value); otherwise the induced basis replaces the target wholesale and the
target is normalized (whose own notification `updateEntanglement(state2)`
fails the source guard and does nothing). -/
def updateEntanglement (w : EWorld K1 K2) (rel : K1 → Option K2)
    (source : Option Endpoint) : Except QError (EWorld K1 K2) :=
  if w.isActive = false then .ok w
  else if source = some .tgt then .ok w
  else if w.state1.isCollapsed then
    match w.state1.collapsedValue.bind rel with
    | none =>
      .error (.stateError "Entanglement relationFn returned undefined during collapsed propagation.")
    | some tv => .ok (collapseState2 w tv)
  else
    match w.state1.basis.foldlM (fun acc p =>
        match rel p.1 with
        | none =>
          Except.error (QError.stateError "Entanglement relationFn returned undefined for an input value.")
        | some mv => Except.ok (mapSet acc mv (((mapGet acc mv).getD Complex.zero).add p.2)))
        ([] : List (K2 × Complex)) with
    | .error e => .error e
    | .ok induced =>
      match QuantumState.normalize { w.state2 with basis := induced } with
      | .error e => .error e.1
      | .ok s2' => .ok { w with state2 := s2' }

/-- Source `new Entanglement(state1, state2, relationFn)` (lines 17-37): the
type/identity checks are enforced by typing (the two endpoints are distinct
slots of the world); registration in both endpoints' sets is implicit in the
world; then the initial derivation runs. -/
def entangleConstruct (s1 : QuantumState K1) (s2 : QuantumState K2)
    (rel : K1 → Option K2) : Except QError (EWorld K1 K2) :=
  updateEntanglement ⟨s1, s2, true⟩ rel none

/-- Source `onMeasurement(measuredState, measuredValue)` (lines 84-97) at the call
site where the source was measured: `measuredState === state1` holds. -/
def onMeasurementSource (w : EWorld K1 K2) (rel : K1 → Option K2) (v : K1) :
    Except QError (EWorld K1 K2) :=
  if w.isActive = false then .ok w
  else
    match rel v with
    | none =>
      .error (.stateError "Entanglement relationFn returned undefined for measured value.")
    | some mv => .ok (collapseState2 w mv)

/-- Source `onMeasurement(measuredState, measuredValue)` at the call site where the
target was measured: the `measuredState === state1` guard fails and the
method does nothing. -/
def onMeasurementTarget (w : EWorld K1 K2) (_rel : K1 → Option K2) (_v : K2) :
    EWorld K1 K2 :=
  w

/-- Measuring the source state inside the world: `state1.measure()` with its
`collapseTo` notifying the entanglement (`_notifyEntangledStates`). -/
def EWorld.measureSource (w : EWorld K1 K2) (rel : K1 → Option K2)
    (randomStream : ℕ → ℝ) (cursor : ℕ) :
    Except QError (Option K1 × EWorld K1 K2 × ℕ) :=
  if w.state1.isCollapsed then .ok (w.state1.collapsedValue, w, cursor)
  else
    let probabilities := w.state1.getProbabilities
    let rand := randomStream cursor
    let measuredValue :=
      match bornWalk probabilities rand 0 with
      | some v => some v
      | none => w.state1.basis.getLast?.map (·.1)
    match measuredValue with
    | none => .error (.rangeError "Cannot collapse to a value not present in the basis.")
    | some v =>
      match w.state1.collapseTo v "measurement" (some probabilities) with
      | .error e => .error e.1
      | .ok s1' =>
        match onMeasurementSource ⟨s1', w.state2, w.isActive⟩ rel v with
        | .error e => .error e
        | .ok w' => .ok (some v, w', cursor + 1)

/-- Normalizing the target state inside the world: `state2.normalize()`
notifies the entanglement with `updateEntanglement(state2)`. -/
def EWorld.normalizeTarget (w : EWorld K1 K2) (rel : K1 → Option K2) :
    Except QError (EWorld K1 K2) :=
  match w.state2.normalize with
  | .error e => .error e.1
  | .ok s2' => updateEntanglement ⟨w.state1, s2', w.isActive⟩ rel (some .tgt)

/-- Collapsing the target state inside the world: `state2.collapseTo(value)`
notifies the entanglement with `onMeasurement(state2, value)`. -/
def EWorld.collapseTarget (w : EWorld K1 K2) (rel : K1 → Option K2) (v : K2) :
    Except QError (EWorld K1 K2) :=
  match w.state2.collapseTo v "manual-collapse" none with
  | .error e => .error e.1
  | .ok s2' => .ok (onMeasurementTarget ⟨w.state1, s2', w.isActive⟩ rel v)

/-- The invariant of claim C1: non-empty basis, every entry's magnitude at
least the prune epsilon `1e-12`, and total probability `1` within `1e-9`. -/
def basisInvariant (s : QuantumState K) : Prop :=
  s.basis ≠ [] ∧
  (∀ q ∈ s.basis, AMPLITUDE_PRUNE_EPSILON ≤ q.2.magnitude) ∧
  |sumMagnitudeSquared s.basis - 1| ≤ 1 / 10 ^ 9

lemma Complex.magSq_nonneg (z : Complex) : 0 ≤ z.magnitudeSquared :=
  add_nonneg (mul_self_nonneg _) (mul_self_nonneg _)

lemma Complex.magnitude_eq (z : Complex) : z.magnitude = Real.sqrt z.magnitudeSquared := rfl

lemma Complex.magnitude_lt_iff {z : Complex} {c : ℝ} (hc : 0 < c) :
    z.magnitude < c ↔ z.magnitudeSquared < c ^ 2 :=
  Real.sqrt_lt' hc

lemma Complex.le_magnitude_iff {z : Complex} {c : ℝ} (hc : 0 ≤ c) :
    c ≤ z.magnitude ↔ c ^ 2 ≤ z.magnitudeSquared :=
  Real.le_sqrt hc z.magSq_nonneg

lemma Complex.scale_magSq (z : Complex) (r : ℝ) :
    (z.scale r).magnitudeSquared = z.magnitudeSquared * r ^ 2 := by
  simp only [Complex.scale, Complex.magnitudeSquared]
  ring

lemma foldl_add_eq {α : Type _} (f : α → ℝ) (l : List α) (a : ℝ) :
    l.foldl (fun acc x => acc + f x) a = a + (l.map f).sum := by
  induction l generalizing a with
  | nil => simp
  | cons hd tl ih => simp [ih, add_assoc]

lemma sumMagSq_eq (m : List (K × Complex)) :
    sumMagnitudeSquared m = (m.map (fun p => p.2.magnitudeSquared)).sum := by
  simp [sumMagnitudeSquared, foldl_add_eq]

lemma sumMagSq_nonneg (m : List (K × Complex)) : 0 ≤ sumMagnitudeSquared m := by
  rw [sumMagSq_eq]
  refine List.sum_nonneg ?_
  intro x hx
  rw [List.mem_map] at hx
  obtain ⟨q, _, rfl⟩ := hx
  exact q.2.magSq_nonneg

lemma sumMagSq_scaled (m : List (K × Complex)) (c : ℝ) :
    sumMagnitudeSquared (m.map (fun p => (p.1, p.2.scale c))) =
      c ^ 2 * sumMagnitudeSquared m := by
  rw [sumMagSq_eq, sumMagSq_eq, List.map_map]
  have : ((fun p : K × Complex => p.2.magnitudeSquared) ∘ fun p => (p.1, p.2.scale c)) =
      fun p : K × Complex => c ^ 2 * p.2.magnitudeSquared := by
    funext p
    simp [Complex.scale_magSq]
    ring
  rw [this, ← List.sum_map_mul_left]

lemma sum_filter_le {α : Type _} (l : List α) (f : α → ℝ) (p : α → Bool)
    (hf : ∀ x ∈ l, 0 ≤ f x) :
    ((l.filter p).map f).sum ≤ (l.map f).sum := by
  induction l with
  | nil => simp
  | cons hd tl ih =>
    have h0 : 0 ≤ f hd := hf hd (by simp)
    have ih' := ih (fun x hx => hf x (by simp [hx]))
    by_cases hp : p hd
    · simp [List.filter_cons, hp]
      linarith
    · simp [List.filter_cons, hp]
      linarith

lemma sum_le_filter_add {α : Type _} (l : List α) (f : α → ℝ) (p : α → Bool)
    (B : ℝ) (hB : 0 ≤ B) (h : ∀ x ∈ l, p x = false → f x < B) :
    (l.map f).sum ≤ ((l.filter p).map f).sum + l.length * B := by
  induction l with
  | nil => simp
  | cons hd tl ih =>
    have ih' := ih (fun x hx hpx => h x (by simp [hx]) hpx)
    by_cases hp : p hd
    · simp only [List.filter_cons, hp, if_true, List.map_cons, List.sum_cons,
        List.length_cons]
      push_cast
      linarith
    · have hlt : f hd < B := h hd (by simp) (by simpa using hp)
      simp only [List.filter_cons, hp, if_false, List.map_cons, List.sum_cons,
        List.length_cons, Bool.false_eq_true]
      push_cast
      linarith

lemma mapSet_length_le (m : List (K × Complex)) (k : K) (v : Complex) :
    (mapSet m k v).length ≤ m.length + 1 := by
  unfold mapSet
  split
  · simp
  · simp

lemma accumulateBasis_length_le (entries : List (K × Complex)) :
    (accumulateBasis entries).length ≤ entries.length := by
  unfold accumulateBasis
  suffices h : ∀ m : List (K × Complex),
      (entries.foldl (fun m e => mapSet m e.1 (((mapGet m e.1).getD Complex.zero).add e.2)) m).length ≤
        m.length + entries.length by
    simpa using h []
  induction entries with
  | nil => simp
  | cons hd tl ih =>
    intro m
    calc (List.foldl _ (mapSet m hd.1 (((mapGet m hd.1).getD Complex.zero).add hd.2)) tl).length ≤
        (mapSet m hd.1 (((mapGet m hd.1).getD Complex.zero).add hd.2)).length + tl.length :=
          ih _
      _ ≤ m.length + 1 + tl.length := by
          have := mapSet_length_le m hd.1 (((mapGet m hd.1).getD Complex.zero).add hd.2)
          omega
      _ = m.length + (tl.length + 1) := by omega

/-- Master lemma for `normalize()`: a successful call returns a non-empty
basis whose entries all have magnitude at least the prune epsilon, whose
total probability lies in `[1 - n·1e-24, 1]` (`n` the input basis size; each
post-scaling pruned entry removes less than `1e-24` of mass), and whose size
does not exceed the input's. -/
lemma normalize_ok {s s' : QuantumState K} (h : s.normalize = .ok s') :
    s'.basis ≠ [] ∧
    (∀ q ∈ s'.basis, AMPLITUDE_PRUNE_EPSILON ≤ q.2.magnitude) ∧
    sumMagnitudeSquared s'.basis ≤ 1 ∧
    1 - s.basis.length * (1 / 10 ^ 24) ≤ sumMagnitudeSquared s'.basis ∧
    s'.basis.length ≤ s.basis.length := by
  simp only [QuantumState.normalize] at h
  split at h
  · simp at h
  next hT =>
    split at h
    · simp at h
    next hpr =>
      simp only [Except.ok.injEq] at h
      subst h
      set T := sumMagnitudeSquared s.basis with hTdef
      have hT0 : (0 : ℝ) < T := by
        have : NORMALIZATION_EPSILON < T := lt_of_not_le hT
        have hpos : (0 : ℝ) < NORMALIZATION_EPSILON := by
          unfold NORMALIZATION_EPSILON
          norm_num
        linarith
      set scaled := s.basis.map (fun p => (p.1, p.2.scale (1 / Real.sqrt T))) with hscaled
      have hsum_scaled : sumMagnitudeSquared scaled = 1 := by
        rw [hscaled, sumMagSq_scaled]
        have hsq : Real.sqrt T ^ 2 = T := Real.sq_sqrt hT0.le
        rw [div_pow, one_pow, hsq]
        field_simp
      have hmem : ∀ q ∈ pruneFilter scaled, AMPLITUDE_PRUNE_EPSILON ≤ q.2.magnitude := by
        intro q hq
        rw [pruneFilter, List.mem_filter] at hq
        have := hq.2
        simp only [Bool.not_eq_eq_eq_not, Bool.not_true, decide_eq_false_iff_not] at this
        exact le_of_not_lt this
      have hle1 : sumMagnitudeSquared (pruneFilter scaled) ≤ 1 := by
        rw [sumMagSq_eq]
        calc ((scaled.filter _).map _).sum ≤ (scaled.map (fun p => p.2.magnitudeSquared)).sum :=
            sum_filter_le _ _ _ (fun x _ => x.2.magSq_nonneg)
          _ = 1 := by rw [← sumMagSq_eq, hsum_scaled]
      have hlen : (pruneFilter scaled).length ≤ s.basis.length := by
        calc (pruneFilter scaled).length ≤ scaled.length := List.length_filter_le _ _
          _ = s.basis.length := by rw [hscaled, List.length_map]
      have hge : 1 - s.basis.length * (1 / 10 ^ 24) ≤ sumMagnitudeSquared (pruneFilter scaled) := by
        have hdrop : ∀ x ∈ scaled,
            (!decide (x.2.magnitude < AMPLITUDE_PRUNE_EPSILON)) = false →
            x.2.magnitudeSquared < 1 / 10 ^ 24 := by
          intro x _ hx
          simp only [Bool.not_eq_false', Bool.not_eq_false, decide_eq_true_eq] at hx
          have heps : (0 : ℝ) < AMPLITUDE_PRUNE_EPSILON := by
            unfold AMPLITUDE_PRUNE_EPSILON
            norm_num
          have := (Complex.magnitude_lt_iff heps).mp hx
          calc x.2.magnitudeSquared < AMPLITUDE_PRUNE_EPSILON ^ 2 := this
            _ = 1 / 10 ^ 24 := by
              unfold AMPLITUDE_PRUNE_EPSILON
              norm_num
        have hmain := sum_le_filter_add scaled (fun p => p.2.magnitudeSquared)
          (fun p => !decide (p.2.magnitude < AMPLITUDE_PRUNE_EPSILON))
          (1 / 10 ^ 24) (by norm_num) hdrop
        rw [← sumMagSq_eq, ← sumMagSq_eq, hsum_scaled] at hmain
        have hlen_scaled : (scaled.length : ℝ) = s.basis.length := by
          rw [hscaled, List.length_map]
        rw [hlen_scaled] at hmain
        unfold pruneFilter
        linarith
      exact ⟨hpr, hmem, hle1, hge, hlen⟩

/-- Master lemma for the constructor: same bounds, against the length of the
entries list. -/
lemma construct_ok {entries : List (K × Complex)} {s : QuantumState K}
    (h : QuantumState.construct entries = .ok s) :
    s.basis ≠ [] ∧
    (∀ q ∈ s.basis, AMPLITUDE_PRUNE_EPSILON ≤ q.2.magnitude) ∧
    sumMagnitudeSquared s.basis ≤ 1 ∧
    1 - entries.length * (1 / 10 ^ 24) ≤ sumMagnitudeSquared s.basis ∧
    s.basis.length ≤ entries.length := by
  unfold QuantumState.construct at h
  split at h
  · simp at h
  cases hp : pruneNearZeroAmplitudes (accumulateBasis entries) with
  | error e =>
    rw [hp] at h
    simp at h
  | ok m =>
    rw [hp] at h
    dsimp only at h
    cases hn : QuantumState.normalize (⟨m, false, none, []⟩ : QuantumState K) with
    | error e =>
      rw [hn] at h
      simp at h
    | ok s0 =>
      rw [hn] at h
      simp only [Except.ok.injEq] at h
      subst h
      have hm : m = pruneFilter (accumulateBasis entries) := by
        simp only [pruneNearZeroAmplitudes] at hp
        split at hp
        · simp at hp
        · simp only [Except.ok.injEq] at hp
          exact hp.symm
      have hmlen : m.length ≤ entries.length := by
        rw [hm]
        calc (pruneFilter (accumulateBasis entries)).length ≤
            (accumulateBasis entries).length := List.length_filter_le _ _
          _ ≤ entries.length := accumulateBasis_length_le entries
      obtain ⟨h1, h2, h3, h4, h5⟩ := normalize_ok hn
      refine ⟨h1, h2, h3, ?_, le_trans h5 hmlen⟩
      have hmono : 1 - (entries.length : ℝ) * (1 / 10 ^ 24) ≤
          1 - (m.length : ℝ) * (1 / 10 ^ 24) := by
        have : (m.length : ℝ) ≤ entries.length := by exact_mod_cast hmlen
        nlinarith
      exact le_trans hmono h4

lemma construct_inv {entries : List (K × Complex)} {s : QuantumState K}
    (h : QuantumState.construct entries = .ok s) (hlen : entries.length ≤ 10 ^ 15) :
    basisInvariant s := by
  obtain ⟨h1, h2, h3, h4, _⟩ := construct_ok h
  refine ⟨h1, h2, ?_⟩
  rw [abs_le]
  have hc : (entries.length : ℝ) ≤ 10 ^ 15 := by exact_mod_cast hlen
  constructor
  · nlinarith
  · linarith

lemma normalize_inv {s s' : QuantumState K} (h : s.normalize = .ok s')
    (hlen : s.basis.length ≤ 10 ^ 15) : basisInvariant s' := by
  obtain ⟨h1, h2, h3, h4, _⟩ := normalize_ok h
  refine ⟨h1, h2, ?_⟩
  rw [abs_le]
  have hc : (s.basis.length : ℝ) ≤ 10 ^ 15 := by exact_mod_cast hlen
  constructor
  · nlinarith
  · linarith

lemma clone_basis {s c : QuantumState K} (h : s.clone = .ok c) :
    ∃ c0, QuantumState.construct s.basis = .ok c0 ∧ c.basis = c0.basis := by
  unfold QuantumState.clone at h
  cases hc : QuantumState.construct s.basis with
  | error e =>
    rw [hc] at h
    simp at h
  | ok c0 =>
    rw [hc] at h
    simp only [Except.ok.injEq] at h
    exact ⟨c0, rfl, by rw [← h]⟩

lemma clone_inv {s c : QuantumState K} (h : s.clone = .ok c)
    (hlen : s.basis.length ≤ 10 ^ 15) : basisInvariant c := by
  obtain ⟨c0, hc0, hb⟩ := clone_basis h
  unfold basisInvariant
  rw [hb]
  exact construct_inv hc0 hlen

lemma clone_length_le {s c : QuantumState K} (h : s.clone = .ok c) :
    c.basis.length ≤ s.basis.length := by
  obtain ⟨c0, hc0, hb⟩ := clone_basis h
  rw [hb]
  exact (construct_ok hc0).2.2.2.2

lemma buildStateFromMap_inv {m : List (K × Complex)} {op : String} {s : QuantumState K}
    (h : buildStateFromMap m op = .ok s) (hlen : m.length ≤ 10 ^ 15) :
    basisInvariant s := by
  unfold buildStateFromMap at h
  split at h
  · simp at h
  · exact construct_inv h hlen

lemma applyConditionalBody_inv {cond : K → Bool} {body : K → ℕ → BranchResult K}
    {s0 t : QuantumState K} {i : ℕ}
    (h : applyConditionalBody cond body s0 i = .ok t)
    (hb : ∀ m, applyConditionalBodyCombined cond body s0 i = .ok m → m.length ≤ 10 ^ 15) :
    basisInvariant t := by
  unfold applyConditionalBody at h
  simp only [bind, Except.bind] at h
  cases hc : applyConditionalBodyCombined cond body s0 i with
  | error e =>
    rw [hc] at h
    simp at h
  | ok m =>
    rw [hc] at h
    dsimp only at h
    exact buildStateFromMap_inv h (hb m hc)

lemma applyBodyToState_inv {body : K → ℕ → BranchResult K}
    {s0 t : QuantumState K} {i : ℕ}
    (h : applyBodyToState body s0 i = .ok t)
    (hb : ∀ m, applyBodyToStateCombined body s0 i = .ok m → m.length ≤ 10 ^ 15) :
    basisInvariant t := by
  unfold applyBodyToState at h
  simp only [bind, Except.bind] at h
  cases hc : applyBodyToStateCombined body s0 i with
  | error e =>
    rw [hc] at h
    simp at h
  | ok m =>
    rw [hc] at h
    dsimp only at h
    exact buildStateFromMap_inv h (hb m hc)

/-- A successful `quantumWhileAux` run ends either at the state it started
from or at an `_applyConditionalBody` output. -/
lemma quantumWhileAux_final {cond : K → Bool} {body : K → ℕ → BranchResult K}
    {s : QuantumState K} {hist : List (QuantumState K)} {iter fuel : ℕ} {r : WhileResult K}
    (h : quantumWhileAux cond body s hist iter fuel = .ok r) :
    r.finalState = s ∨ ∃ s0 i, applyConditionalBody cond body s0 i = .ok r.finalState := by
  induction fuel generalizing s hist iter with
  | zero =>
    simp only [quantumWhileAux, Except.ok.injEq] at h
    left
    rw [← h]
  | succ fuel ih =>
    rw [quantumWhileAux] at h
    split at h
    · simp only [bind, Except.bind] at h
      cases ha : applyConditionalBody cond body s iter with
      | error e =>
        rw [ha] at h
        simp at h
      | ok s' =>
        rw [ha] at h
        dsimp only at h
        cases hc : s'.clone with
        | error e =>
          rw [hc] at h
          simp at h
        | ok c =>
          rw [hc] at h
          dsimp only at h
          rcases ih h with hfin | hfin
          · right
            exact ⟨s, iter, by rw [hfin]; exact ha⟩
          · right
            exact hfin
    · simp only [Except.ok.injEq] at h
      left
      rw [← h]

/-- A successful `quantumForAux` run ends either at the state it started from
or at an `_applyBodyToState` output. -/
lemma quantumForAux_final {body : K → ℕ → BranchResult K}
    {s : QuantumState K} {hist : List (QuantumState K)} {idx n : ℕ} {r : ForResult K}
    (h : quantumForAux body s hist idx n = .ok r) :
    r.finalState = s ∨ ∃ s0 i, applyBodyToState body s0 i = .ok r.finalState := by
  induction n generalizing s hist idx with
  | zero =>
    simp only [quantumForAux, Except.ok.injEq] at h
    left
    rw [← h]
  | succ n ih =>
    rw [quantumForAux] at h
    simp only [bind, Except.bind] at h
    cases ha : applyBodyToState body s idx with
    | error e =>
      rw [ha] at h
      simp at h
    | ok s' =>
      rw [ha] at h
      dsimp only at h
      cases hc : s'.clone with
      | error e =>
        rw [hc] at h
        simp at h
      | ok c =>
        rw [hc] at h
        dsimp only at h
        rcases ih h with hfin | hfin
        · right
          exact ⟨s, idx, by rw [hfin]; exact ha⟩
        · right
          exact hfin

/-- C1: for every Superposition successfully returned by a public operation
(construction, `normalize`, `setAmplitude`, `stabilize`, a gate, `interfere`,
or a combinator), the sum over its basis of `magnitudeSquared` of each
amplitude equals 1 within `1e-9`, the basis is non-empty, and every remaining
entry has magnitude at least the prune epsilon `1e-12`.  In exact arithmetic
every post-normalization pruned entry removes less than `1e-24` of
probability mass, so the `1e-9` tolerance is established under the (vastly
generous — a JS `Map` caps out near `2^24` entries) bound of `10^15` entries
feeding the final construction of each operation. -/
theorem C1_public_operations_preserve_invariants
    {K K2 : Type} [DecidableEq K] [DecidableEq K2] :
    (∀ (entries : List (K × Complex)) s, QuantumState.construct entries = .ok s →
      entries.length ≤ 10 ^ 15 → basisInvariant s) ∧
    (∀ (s s' : QuantumState K), s.normalize = .ok s' →
      s.basis.length ≤ 10 ^ 15 → basisInvariant s') ∧
    (∀ (s : QuantumState K) k a s', s.setAmplitude k a = .ok s' →
      s.basis.length + 1 ≤ 10 ^ 15 → basisInvariant s') ∧
    (∀ (s s' : QuantumState K), s.stabilize = .ok s' →
      s.basis.length ≤ 10 ^ 15 → basisInvariant s') ∧
    (∀ (s s' : QuantumState K), QuantumGates.hadamard s = .ok s' → basisInvariant s') ∧
    (∀ (s : QuantumState K) t θ s', QuantumGates.phase s t θ = .ok s' →
      s.basis.length ≤ 10 ^ 15 → basisInvariant s') ∧
    (∀ (s : QuantumState K) θ s', QuantumGates.rotate s θ = .ok s' →
      s.basis.length ≤ 10 ^ 15 → basisInvariant s') ∧
    (∀ (s : QuantumState K) ts f s', QuantumGates.amplify s ts f = .ok s' →
      s.basis.length ≤ 10 ^ 15 → basisInvariant s') ∧
    (∀ (qs : List (QuantumState K)) w s', Interference.interfere qs w = .ok s' →
      (unionValues qs).length ≤ 10 ^ 15 → basisInvariant s') ∧
    (∀ (tr : K → Bool) (c : QuantumState K) (t e : K → BranchResult K2) s',
      QuantumConditionals.quantumIf tr c t e = .ok s' →
      (∀ m, quantumIfCombined tr c t e = .ok m → m.length ≤ 10 ^ 15) →
      basisInvariant s') ∧
    (∀ (st : QuantumState K) (cs : K → Option (K → BranchResult K2))
      (d : Option (K → BranchResult K2)) s',
      QuantumConditionals.quantumSwitch st cs d = .ok s' →
      (∀ m, quantumSwitchCombined st cs d = .ok m → m.length ≤ 10 ^ 15) →
      basisInvariant s') ∧
    (∀ (n : ℕ) (init : QuantumState K) (b : K → ℕ → BranchResult K) r,
      QuantumLoops.quantumFor n init b = .ok r →
      init.basis.length ≤ 10 ^ 15 →
      (∀ s0 i m, applyBodyToStateCombined b s0 i = .ok m → m.length ≤ 10 ^ 15) →
      basisInvariant r.finalState) ∧
    (∀ (cond : K → Bool) (b : K → ℕ → BranchResult K) (init : QuantumState K) mx r,
      QuantumLoops.quantumWhile cond b init mx = .ok r →
      init.basis.length ≤ 10 ^ 15 →
      (∀ s0 i m, applyConditionalBodyCombined cond b s0 i = .ok m → m.length ≤ 10 ^ 15) →
      basisInvariant r.finalState) := by
  refine ⟨?_, ?_, ?_, ?_, ?_, ?_, ?_, ?_, ?_, ?_, ?_, ?_, ?_⟩
  · intro entries s h hlen
    exact construct_inv h hlen
  · intro s s' h hlen
    exact normalize_inv h hlen
  · intro s k a s' h hlen
    simp only [QuantumState.setAmplitude] at h
    split at h
    · simp at h
    · refine normalize_inv h ?_
      calc (pruneFilter (mapSet s.basis k a)).length ≤ (mapSet s.basis k a).length :=
          List.length_filter_le _ _
        _ ≤ s.basis.length + 1 := mapSet_length_le _ _ _
        _ ≤ 10 ^ 15 := hlen
  · intro s s' h hlen
    simp only [QuantumState.stabilize] at h
    split at h
    · simp at h
    · refine normalize_inv h ?_
      calc (pruneFilter s.basis).length ≤ s.basis.length := List.length_filter_le _ _
        _ ≤ 10 ^ 15 := hlen
  · intro s s' h
    unfold QuantumGates.hadamard at h
    split at h
    · refine construct_inv h ?_
      simp
    · simp at h
  · intro s t θ s' h hlen
    unfold QuantumGates.phase at h
    split at h
    · refine construct_inv h ?_
      rw [List.length_map]
      exact hlen
    · simp at h
  · intro s θ s' h hlen
    unfold QuantumGates.rotate at h
    refine construct_inv h ?_
    rw [List.length_map]
    exact hlen
  · intro s ts f s' h hlen
    unfold QuantumGates.amplify at h
    split at h
    · simp at h
    · split at h
      · simp at h
      · split at h
        · simp at h
        · refine construct_inv h ?_
          rw [List.length_map]
          exact hlen
  · intro qs w s' h hlen
    unfold Interference.interfere at h
    split at h
    · simp at h
    · cases hw : resolveWeights qs.length w with
      | error e =>
        rw [hw] at h
        simp at h
      | ok ws =>
        rw [hw] at h
        dsimp only at h
        split at h
        · simp at h
        · refine construct_inv h ?_
          calc ((unionValues qs).filterMap _).length ≤ (unionValues qs).length :=
              List.length_filterMap_le _ _
            _ ≤ 10 ^ 15 := hlen
  · intro tr c t e s' h hm
    unfold QuantumConditionals.quantumIf at h
    simp only [bind, Except.bind] at h
    cases hcomb : quantumIfCombined tr c t e with
    | error er =>
      rw [hcomb] at h
      simp at h
    | ok m =>
      rw [hcomb] at h
      dsimp only at h
      exact buildStateFromMap_inv h (hm m hcomb)
  · intro st cs d s' h hm
    unfold QuantumConditionals.quantumSwitch at h
    simp only [bind, Except.bind] at h
    cases hcomb : quantumSwitchCombined st cs d with
    | error er =>
      rw [hcomb] at h
      simp at h
    | ok m =>
      rw [hcomb] at h
      dsimp only at h
      exact buildStateFromMap_inv h (hm m hcomb)
  · intro n init b r h hinit hbody
    unfold QuantumLoops.quantumFor at h
    simp only [bind, Except.bind] at h
    cases hc1 : init.clone with
    | error e1 =>
      rw [hc1] at h
      simp at h
    | ok cur =>
      rw [hc1] at h
      dsimp only at h
      cases hc2 : cur.clone with
      | error e2 =>
        rw [hc2] at h
        simp at h
      | ok h0 =>
        rw [hc2] at h
        dsimp only at h
        rcases quantumForAux_final h with hfin | ⟨s0, i, hfin⟩
        · unfold basisInvariant
          rw [hfin]
          exact clone_inv hc1 hinit
        · exact applyBodyToState_inv hfin (fun m => hbody s0 i m)
  · intro cond b init mx r h hinit hbody
    unfold QuantumLoops.quantumWhile at h
    simp only [bind, Except.bind] at h
    cases hc1 : init.clone with
    | error e1 =>
      rw [hc1] at h
      simp at h
    | ok cur =>
      rw [hc1] at h
      dsimp only at h
      cases hc2 : cur.clone with
      | error e2 =>
        rw [hc2] at h
        simp at h
      | ok h0 =>
        rw [hc2] at h
        dsimp only at h
        rcases quantumWhileAux_final h with hfin | ⟨s0, i, hfin⟩
        · unfold basisInvariant
          rw [hfin]
          exact clone_inv hc1 hinit
        · exact applyConditionalBody_inv hfin (fun m => hbody s0 i m)

lemma Complex.magnitude_of_real (x : ℝ) : (⟨x, 0⟩ : Complex).magnitude = |x| := by
  have h : x * x + 0 * 0 = x ^ 2 := by ring
  rw [Complex.magnitude, h, Real.sqrt_sq_eq_abs]

lemma Complex.magSq_of_real (x : ℝ) : (⟨x, 0⟩ : Complex).magnitudeSquared = x ^ 2 := by
  rw [Complex.magnitudeSquared]
  ring

lemma pruneFilter_keep {m : List (K × Complex)}
    (h : ∀ p ∈ m, ¬ p.2.magnitude < AMPLITUDE_PRUNE_EPSILON) : pruneFilter m = m := by
  rw [pruneFilter, List.filter_eq_self]
  intro p hp
  simp [h p hp]

lemma sumMagSq_single (v : K) (a : Complex) :
    sumMagnitudeSquared [(v, a)] = a.magnitudeSquared := by
  simp [sumMagnitudeSquared]

lemma normalize_single_one (v : K) (f : Bool) (cv : Option K)
    (hist : List (HistoryEntry K)) :
    QuantumState.normalize ⟨[(v, ⟨1, 0⟩)], f, cv, hist⟩ =
      .ok ⟨[(v, ⟨1, 0⟩)], true, some v, hist⟩ := by
  have htot : sumMagnitudeSquared [(v, (⟨1, 0⟩ : Complex))] = 1 := by
    rw [sumMagSq_single, Complex.magSq_of_real]
    norm_num
  have hker : ∀ p ∈ [(v, (⟨1, 0⟩ : Complex))], ¬ p.2.magnitude < AMPLITUDE_PRUNE_EPSILON := by
    intro p hp
    simp only [List.mem_singleton] at hp
    subst hp
    rw [Complex.magnitude_of_real]
    rw [AMPLITUDE_PRUNE_EPSILON]
    norm_num
  simp only [QuantumState.normalize]
  rw [htot, if_neg (by rw [NORMALIZATION_EPSILON]; norm_num)]
  have hscale : List.map (fun p : K × Complex => (p.1, p.2.scale (1 / Real.sqrt 1)))
      [(v, ⟨1, 0⟩)] = [(v, ⟨1, 0⟩)] := by
    rw [Real.sqrt_one]
    simp [Complex.scale]
  rw [hscale, pruneFilter_keep hker, if_neg (by simp)]
  have hflags : updateCollapsedFlags [(v, (⟨1, 0⟩ : Complex))] = (true, some v) := by
    rw [updateCollapsedFlags]
    rw [if_pos]
    constructor <;> norm_num
  rw [hflags]

lemma construct_single_one (v : K) :
    QuantumState.construct [(v, (⟨1, 0⟩ : Complex))] =
      .ok ⟨[(v, ⟨1, 0⟩)], true, some v, []⟩ := by
  have hacc : accumulateBasis [(v, (⟨1, 0⟩ : Complex))] = [(v, ⟨1, 0⟩)] := by
    simp [accumulateBasis, mapSet, mapGet, Complex.add, Complex.zero]
  have hker : ∀ p ∈ [(v, (⟨1, 0⟩ : Complex))], ¬ p.2.magnitude < AMPLITUDE_PRUNE_EPSILON := by
    intro p hp
    simp only [List.mem_singleton] at hp
    subst hp
    rw [Complex.magnitude_of_real]
    rw [AMPLITUDE_PRUNE_EPSILON]
    norm_num
  have hprune : pruneNearZeroAmplitudes [(v, (⟨1, 0⟩ : Complex))] = .ok [(v, ⟨1, 0⟩)] := by
    simp only [pruneNearZeroAmplitudes, pruneFilter_keep hker]
    rw [if_neg (by simp)]
  unfold QuantumState.construct
  rw [if_neg (by simp), hacc, hprune]
  dsimp only
  rw [normalize_single_one]

/-- Witness for C1 at a concrete input: the constructor applied to the single
entry `0 ↦ (1,0)` succeeds and its result satisfies the invariant. -/
theorem C1_witness :
    ∃ s : QuantumState ℕ, QuantumState.construct [(0, (⟨1, 0⟩ : Complex))] = .ok s ∧
      basisInvariant s := by
  have h := construct_single_one (K := ℕ) 0
  exact ⟨_, h,
    (@C1_public_operations_preserve_invariants ℕ ℕ _ _).1 _ _ h (by norm_num)⟩

lemma collapseTo_ok {s : QuantumState K} {k : K} {reason : String}
    {pre : Option (List (K × ℝ))} {s' : QuantumState K}
    (h : s.collapseTo k reason pre = .ok s') :
    s' = ⟨[(k, ⟨1, 0⟩)], true, some k,
          s.measurementHistory ++ [⟨k, reason, pre.getD s.getProbabilities⟩]⟩ := by
  unfold QuantumState.collapseTo at h
  split at h
  · simp only [Except.ok.injEq] at h
    exact h.symm
  · simp at h

lemma measure_collapsed {s : QuantumState K} (h : s.isCollapsed = true)
    (st : ℕ → ℝ) (cur : ℕ) : s.measure st cur = .ok (s.collapsedValue, s, cur) := by
  simp [QuantumState.measure, h]

lemma measure_ok_cases {s : QuantumState K} {st : ℕ → ℝ} {cur : ℕ}
    {v : Option K} {s' : QuantumState K} {c : ℕ}
    (h : s.measure st cur = .ok (v, s', c)) (hnc : s.isCollapsed = false) :
    ∃ k, v = some k ∧ c = cur + 1 ∧
      s' = ⟨[(k, ⟨1, 0⟩)], true, some k,
            s.measurementHistory ++ [⟨k, "measurement", s.getProbabilities⟩]⟩ ∧
      (match bornWalk s.getProbabilities (st cur) 0 with
        | some w => some w
        | none => s.basis.getLast?.map (fun q : K × Complex => q.1)) = some k ∧
      s.collapseTo k "measurement" (some s.getProbabilities) = .ok s' := by
  rw [QuantumState.measure] at h
  rw [hnc] at h
  simp only [Bool.false_eq_true, if_false] at h
  cases hmv : (match bornWalk s.getProbabilities (st cur) 0 with
      | some w => some w
      | none => s.basis.getLast?.map (fun q : K × Complex => q.1)) with
  | none =>
    rw [hmv] at h
    simp at h
  | some k =>
    rw [hmv] at h
    dsimp only at h
    cases hct : s.collapseTo k "measurement" (some s.getProbabilities) with
    | error e =>
      rw [hct] at h
      simp at h
    | ok s'' =>
      rw [hct] at h
      simp only [Except.ok.injEq, Prod.mk.injEq] at h
      obtain ⟨hv, hs, hc⟩ := h
      have hrec := collapseTo_ok hct
      refine ⟨k, hv.symm, hc.symm, ?_, ?_, ?_⟩
      · rw [← hs, hrec]
        rfl
      · rfl
      · rw [hct, hs]

/-- C2: `measure()` is idempotent — if a call returns outcome `v`, state `s'`
and cursor `cur'`, then a second call on `s'` (with any stream) returns the
same outcome and the same state, and leaves the cursor where it was: the
second call draws no randomness and performs no resampling. -/
theorem C2_measure_idempotent {K : Type} [DecidableEq K] {s : QuantumState K}
    {st : ℕ → ℝ} {cur : ℕ} {v : Option K} {s' : QuantumState K} {cur' : ℕ}
    (h : s.measure st cur = .ok (v, s', cur')) (st2 : ℕ → ℝ) :
    s'.measure st2 cur' = .ok (v, s', cur') := by
  by_cases hc : s.isCollapsed
  · rw [measure_collapsed hc st cur] at h
    simp only [Except.ok.injEq, Prod.mk.injEq] at h
    obtain ⟨hv, hs, hcur⟩ := h
    rw [← hs, ← hv, ← hcur]
    exact measure_collapsed hc st2 cur
  · obtain ⟨k, hv, hcur, hs, _, _⟩ :=
      measure_ok_cases h (by simpa using hc)
    subst hv hcur hs
    exact measure_collapsed rfl st2 (cur + 1)

/-- Witness for C2: measuring the uncollapsed single-outcome state `0 ↦ (1,0)`
with sample `1/2` collapses it to `0`; the second call returns the same
outcome, the same state, and does not advance the stream cursor. -/
theorem C2_witness :
    ∃ s' : QuantumState ℕ,
      QuantumState.measure ⟨[(0, ⟨1, 0⟩)], false, none, []⟩ (fun _ => 1 / 2) 0 =
        .ok (some 0, s', 1) ∧
      s'.measure (fun _ => 9 / 10) 1 = .ok (some 0, s', 1) := by
  have hprobs : QuantumState.getProbabilities (⟨[(0, ⟨1, 0⟩)], false, none, []⟩ : QuantumState ℕ) =
      [(0, 1)] := by
    simp [QuantumState.getProbabilities, Complex.magnitudeSquared]
  have hwalk : bornWalk [((0 : ℕ), (1 : ℝ))] (1 / 2) 0 = some 0 := by
    rw [bornWalk]
    rw [if_pos (by norm_num)]
  have hct : QuantumState.collapseTo (⟨[(0, ⟨1, 0⟩)], false, none, []⟩ : QuantumState ℕ)
      0 "measurement" (some [(0, 1)]) =
      .ok ⟨[(0, ⟨1, 0⟩)], true, some 0, [⟨0, "measurement", [(0, 1)]⟩]⟩ := by
    rw [QuantumState.collapseTo]
    rw [if_pos (by simp [mapGet])]
    simp
  have h : QuantumState.measure (⟨[(0, ⟨1, 0⟩)], false, none, []⟩ : QuantumState ℕ)
      (fun _ => 1 / 2) 0 =
      .ok (some 0, ⟨[(0, ⟨1, 0⟩)], true, some 0, [⟨0, "measurement", [(0, 1)]⟩]⟩, 1) := by
    rw [QuantumState.measure]
    simp only [Bool.false_eq_true, if_false]
    rw [hprobs]
    rw [hwalk]
    dsimp only
    rw [hct]
  exact ⟨_, h, C2_measure_idempotent h (fun _ => 9 / 10)⟩

/-- C9: for a Superposition that is already collapsed, a further `measure()`
call returns the stored collapsed value and leaves the object entirely
unchanged — same basis, same flags, same measurement history (no new audit
record), and no randomness consumed (the cursor does not advance). -/
theorem C9_collapsed_measure_is_identity {K : Type} [DecidableEq K]
    (s : QuantumState K) (st : ℕ → ℝ) (cur : ℕ) (h : s.isCollapsed = true) :
    s.measure st cur = .ok (s.collapsedValue, s, cur) :=
  measure_collapsed h st cur

/-- Witness for C9 on a concrete collapsed state. -/
theorem C9_witness :
    QuantumState.measure (⟨[(0, ⟨1, 0⟩)], true, some 0, []⟩ : QuantumState ℕ)
      (fun _ => 1 / 3) 5 = .ok (some 0, ⟨[(0, ⟨1, 0⟩)], true, some 0, []⟩, 5) :=
  C9_collapsed_measure_is_identity ⟨[(0, ⟨1, 0⟩)], true, some 0, []⟩ (fun _ => 1 / 3) 5 rfl

/-- C8 (supporting theorem): with the random source modelled as an explicit
sample stream, an uncollapsed `measure()` call reads exactly the one sample
at the cursor (the result depends on the stream only through that sample and
the cursor advances by exactly one), and a collapsed call reads none.  In
the source, however, the sample is drawn from the process-wide
`Math.random()` with no injection point. -/
theorem C8_measure_single_sample {K : Type} [DecidableEq K] (s : QuantumState K)
    (st st2 : ℕ → ℝ) (cur cur2 : ℕ) (h : st cur = st2 cur2) :
    (s.isCollapsed = true → s.measure st cur = .ok (s.collapsedValue, s, cur)) ∧
    (s.isCollapsed = false → ∀ v s' c, s.measure st cur = .ok (v, s', c) →
      c = cur + 1 ∧ s.measure st2 cur2 = .ok (v, s', cur2 + 1)) := by
  constructor
  · intro hc
    exact measure_collapsed hc st cur
  · intro hc v s' c hm
    obtain ⟨k, hv, hcur, _, hmv, hct⟩ := measure_ok_cases hm hc
    refine ⟨hcur, ?_⟩
    rw [QuantumState.measure]
    rw [hc]
    simp only [Bool.false_eq_true, if_false]
    rw [← h, hmv]
    dsimp only
    rw [hct, hv]

/-- Witness for C8: the supporting determinism theorem applied at a concrete
uncollapsed state with two streams agreeing on the sampled position. -/
theorem C8_witness :
    ∃ s' : QuantumState ℕ,
      QuantumState.measure ⟨[(0, ⟨1, 0⟩)], false, none, []⟩ (fun _ => 1 / 2) 0 =
        .ok (some 0, s', 1) ∧
      QuantumState.measure ⟨[(0, ⟨1, 0⟩)], false, none, []⟩ (fun n => if n = 7 then 0 else 1 / 2) 0 =
        .ok (some 0, s', 0 + 1) := by
  have hprobs : QuantumState.getProbabilities (⟨[(0, ⟨1, 0⟩)], false, none, []⟩ : QuantumState ℕ) =
      [(0, 1)] := by
    simp [QuantumState.getProbabilities, Complex.magnitudeSquared]
  have hwalk : bornWalk [((0 : ℕ), (1 : ℝ))] (1 / 2) 0 = some 0 := by
    rw [bornWalk]
    rw [if_pos (by norm_num)]
  have hct : QuantumState.collapseTo (⟨[(0, ⟨1, 0⟩)], false, none, []⟩ : QuantumState ℕ)
      0 "measurement" (some [(0, 1)]) =
      .ok ⟨[(0, ⟨1, 0⟩)], true, some 0, [⟨0, "measurement", [(0, 1)]⟩]⟩ := by
    rw [QuantumState.collapseTo]
    rw [if_pos (by simp [mapGet])]
    simp
  have hm : QuantumState.measure (⟨[(0, ⟨1, 0⟩)], false, none, []⟩ : QuantumState ℕ)
      (fun _ => 1 / 2) 0 =
      .ok (some 0, ⟨[(0, ⟨1, 0⟩)], true, some 0, [⟨0, "measurement", [(0, 1)]⟩]⟩, 1) := by
    rw [QuantumState.measure]
    simp only [Bool.false_eq_true, if_false]
    rw [hprobs]
    rw [hwalk]
    dsimp only
    rw [hct]
  have h2 := (C8_measure_single_sample (⟨[(0, ⟨1, 0⟩)], false, none, []⟩ : QuantumState ℕ)
      (fun _ => 1 / 2) (fun n => if n = 7 then 0 else 1 / 2) 0 0 (by norm_num)).2 rfl
      (some 0) ⟨[(0, ⟨1, 0⟩)], true, some 0, [⟨0, "measurement", [(0, 1)]⟩]⟩ 1 hm
  exact ⟨_, hm, h2.2⟩

/-- Inversion of the two error exits of `normalize()`: the flags and history
of the object at throw time are untouched, and the basis is either still the
input basis (degenerate-total exit, thrown before scaling) or the emptied
pruned basis (post-scaling prune exit). -/
lemma normalize_error {s se : QuantumState K} {e : QError}
    (h : s.normalize = .error (e, se)) :
    se.isCollapsed = s.isCollapsed ∧ se.collapsedValue = s.collapsedValue ∧
    se.measurementHistory = s.measurementHistory ∧
    (se.basis = s.basis ∨ se.basis = []) := by
  simp only [QuantumState.normalize] at h
  split at h
  · simp only [Except.error.injEq, Prod.mk.injEq] at h
    rw [← h.2]
    exact ⟨rfl, rfl, rfl, Or.inl rfl⟩
  · split at h
    next hemp =>
      simp only [Except.error.injEq, Prod.mk.injEq] at h
      rw [← h.2]
      exact ⟨rfl, rfl, rfl, Or.inr hemp⟩
    · simp at h

/-- Shared concrete evaluation: on the collapsed one-entry state `0 ↦ (1,0)`,
`setAmplitude(0, (0,0))` overwrites the entry, prunes it away, and throws the
empty-after-pruning error — with the object's basis already cleared. -/
lemma setAmplitude_zero_out_eval :
    QuantumState.setAmplitude (⟨[(0, ⟨1, 0⟩)], true, some 0, []⟩ : QuantumState ℕ) 0 ⟨0, 0⟩ =
      .error (.stateError "Quantum state has no non-zero amplitudes after pruning.",
        ⟨[], true, some 0, []⟩) := by
  have hms : mapSet [((0 : ℕ), (⟨1, 0⟩ : Complex))] 0 ⟨0, 0⟩ = [(0, ⟨0, 0⟩)] := by
    simp [mapSet]
  have hmag : ((⟨0, 0⟩ : Complex)).magnitude < AMPLITUDE_PRUNE_EPSILON := by
    rw [Complex.magnitude_of_real, AMPLITUDE_PRUNE_EPSILON]
    norm_num
  have hpf : pruneFilter [((0 : ℕ), (⟨0, 0⟩ : Complex))] = [] := by
    simp [pruneFilter, hmag]
  simp only [QuantumState.setAmplitude]
  rw [hms, hpf, if_pos rfl]

/-- C5 counterexample: an error raised by `setAmplitude` CAN leave the object
partially mutated.  On the collapsed state `{0 ↦ (1,0)}`, setting the
amplitude of `0` to `(0,0)` throws the degenerate-state error, and at throw
time the basis has been overwritten and emptied — it is no longer the
original one-entry basis, refuting "no partial mutation of the object under
operation". -/
theorem C5_counterexample :
    QuantumState.setAmplitude (⟨[(0, ⟨1, 0⟩)], true, some 0, []⟩ : QuantumState ℕ) 0 ⟨0, 0⟩ =
      .error (.stateError "Quantum state has no non-zero amplitudes after pruning.",
        ⟨[], true, some 0, []⟩) ∧
    ([] : List (ℕ × Complex)) ≠ [((0 : ℕ), (⟨1, 0⟩ : Complex))] := by
  refine ⟨setAmplitude_zero_out_eval, ?_⟩
  simp

/-- C5 amended: every failing `setAmplitude` leaves the collapsed flag, the
collapsed value and the measurement history exactly as they were, but the
basis at throw time is the overwritten-and-pruned basis (possibly empty), not
the original; the invalid-argument type error alone (enforced by typing
here) precedes any mutation. -/
theorem C5_amended_error_mutation_scope {K : Type} [DecidableEq K]
    (s : QuantumState K) (k : K) (a : Complex) (e : QError) (se : QuantumState K)
    (h : s.setAmplitude k a = .error (e, se)) :
    se.isCollapsed = s.isCollapsed ∧ se.collapsedValue = s.collapsedValue ∧
    se.measurementHistory = s.measurementHistory ∧
    (se.basis = pruneFilter (mapSet s.basis k a) ∨ se.basis = []) := by
  simp only [QuantumState.setAmplitude] at h
  split at h
  next hemp =>
    simp only [Except.error.injEq, Prod.mk.injEq] at h
    rw [← h.2]
    exact ⟨rfl, rfl, rfl, Or.inr hemp⟩
  · obtain ⟨h1, h2, h3, h4⟩ := normalize_error h
    exact ⟨h1, h2, h3, by simpa using h4⟩

/-- Witness for the amended C5 theorem at the counterexample input. -/
theorem C5_witness :
    ∃ (e : QError) (se : QuantumState ℕ),
      QuantumState.setAmplitude (⟨[(0, ⟨1, 0⟩)], true, some 0, []⟩ : QuantumState ℕ) 0 ⟨0, 0⟩ =
        .error (e, se) ∧
      se.isCollapsed = true ∧ se.collapsedValue = some 0 ∧ se.measurementHistory = [] := by
  have h := setAmplitude_zero_out_eval
  obtain ⟨h1, h2, h3, _⟩ :=
    C5_amended_error_mutation_scope (⟨[(0, ⟨1, 0⟩)], true, some 0, []⟩ : QuantumState ℕ)
      0 ⟨0, 0⟩ _ _ h
  exact ⟨_, _, h, h1, h2, h3⟩

lemma clone_single_one (v : K) (f : Bool) (cv : Option K) (hist : List (HistoryEntry K)) :
    QuantumState.clone ⟨[(v, ⟨1, 0⟩)], f, cv, hist⟩ = .ok ⟨[(v, ⟨1, 0⟩)], f, cv, hist⟩ := by
  unfold QuantumState.clone
  rw [construct_single_one]

lemma quantumWhileAux_flags {cond : K → Bool} {body : K → ℕ → BranchResult K}
    {s : QuantumState K} {hist : List (QuantumState K)} {iter fuel : ℕ} {r : WhileResult K}
    (h : quantumWhileAux cond body s hist iter fuel = .ok r) :
    (r.terminatedByMaxIterations = true ↔ r.iterations = iter + fuel) ∧
    (r.terminatedByMaxIterations = false → ∀ p ∈ r.finalState.basis, cond p.1 = false) := by
  induction fuel generalizing s hist iter with
  | zero =>
    simp only [quantumWhileAux, Except.ok.injEq] at h
    subst h
    constructor
    · simp
    · intro hcontra
      simp at hcontra
  | succ fuel ih =>
    rw [quantumWhileAux] at h
    split at h
    · simp only [bind, Except.bind] at h
      cases ha : applyConditionalBody cond body s iter with
      | error e =>
        rw [ha] at h
        simp at h
      | ok s' =>
        rw [ha] at h
        dsimp only at h
        cases hc : s'.clone with
        | error e =>
          rw [hc] at h
          simp at h
        | ok c =>
          rw [hc] at h
          dsimp only at h
          have hih := ih h
          have harith : iter + 1 + fuel = iter + (fuel + 1) := by omega
          rw [harith] at hih
          exact hih
    next hany =>
      simp only [Except.ok.injEq] at h
      subst h
      constructor
      · constructor
        · intro hcontra
          simp at hcontra
        · intro hcontra
          dsimp only at hcontra
          exfalso
          omega
      · intro _ p hp
        have : s.basis.any (fun p => cond p.1) = false := by
          revert hany
          cases s.basis.any (fun p => cond p.1) <;> simp
        rw [List.any_eq_false] at this
        simpa using this p hp

/-- C7: `quantumWhile` stops with `terminatedByMaxIterations = true` exactly
when it has run `maxIterations` iterations, and whenever it stops with
`terminatedByMaxIterations = false` it is because no outcome of the current
superposition satisfies the condition; this holds for every non-negative
integer `maxIterations` (including 0) and every initial Superposition. -/
theorem C7_quantumWhile_termination_flag {K : Type} [DecidableEq K]
    (cond : K → Bool) (body : K → ℕ → BranchResult K) (init : QuantumState K)
    (maxIterations : ℕ) (r : WhileResult K)
    (h : QuantumLoops.quantumWhile cond body init maxIterations = .ok r) :
    (r.terminatedByMaxIterations = true ↔ r.iterations = maxIterations) ∧
    (r.terminatedByMaxIterations = false → ∀ p ∈ r.finalState.basis, cond p.1 = false) := by
  unfold QuantumLoops.quantumWhile at h
  simp only [bind, Except.bind] at h
  cases hc1 : init.clone with
  | error e1 =>
    rw [hc1] at h
    simp at h
  | ok cur =>
    rw [hc1] at h
    dsimp only at h
    cases hc2 : cur.clone with
    | error e2 =>
      rw [hc2] at h
      simp at h
    | ok h0 =>
      rw [hc2] at h
      dsimp only at h
      have := quantumWhileAux_flags h
      simpa using this

/-- Witness for C7: a loop whose condition no outcome satisfies stops with
`terminatedByMaxIterations = false` after 0 of its 3 permitted iterations. -/
theorem C7_witness :
    ∃ r : WhileResult ℕ,
      QuantumLoops.quantumWhile (fun _ => false) (fun _ _ => .value 0)
        (⟨[(0, ⟨1, 0⟩)], true, some 0, []⟩ : QuantumState ℕ) 3 = .ok r ∧
      (r.terminatedByMaxIterations = true ↔ r.iterations = 3) ∧
      (r.terminatedByMaxIterations = false → ∀ p ∈ r.finalState.basis, false = false) ∧
      r.terminatedByMaxIterations = false := by
  have hrun : QuantumLoops.quantumWhile (fun _ => false) (fun _ _ => .value (0 : ℕ))
      (⟨[(0, ⟨1, 0⟩)], true, some 0, []⟩ : QuantumState ℕ) 3 =
      .ok ⟨⟨[(0, ⟨1, 0⟩)], true, some 0, []⟩, [⟨[(0, ⟨1, 0⟩)], true, some 0, []⟩], 0, false⟩ := by
    unfold QuantumLoops.quantumWhile
    simp only [bind, Except.bind]
    rw [clone_single_one]
    dsimp only
    rw [clone_single_one]
    dsimp only
    rw [quantumWhileAux]
    rw [if_neg (by simp)]
  obtain ⟨h1, h2⟩ := C7_quantumWhile_termination_flag (fun _ => false) (fun _ _ => .value 0)
    (⟨[(0, ⟨1, 0⟩)], true, some 0, []⟩ : QuantumState ℕ) 3 _ hrun
  exact ⟨_, hrun, h1, fun hf p hp => rfl, rfl⟩

/-- C10: correlation propagation is one-directional — an update notification
originating at the target (`source !== state1`) is ignored, a measurement
notification from the target is ignored, and therefore normalizing or
collapsing the target Superposition inside the world never alters the source
Superposition through the Correlation. -/
theorem C10_propagation_is_one_directional {K1 K2 : Type} [DecidableEq K1] [DecidableEq K2]
    (w : EWorld K1 K2) (rel : K1 → Option K2) (v2 : K2) :
    updateEntanglement w rel (some .tgt) = .ok w ∧
    onMeasurementTarget w rel v2 = w ∧
    (∀ s2', w.state2.normalize = .ok s2' →
      EWorld.normalizeTarget w rel = .ok ⟨w.state1, s2', w.isActive⟩) ∧
    (∀ r, EWorld.collapseTarget w rel v2 = .ok r → r.state1 = w.state1) := by
  have hupd : ∀ s2' : QuantumState K2,
      updateEntanglement (⟨w.state1, s2', w.isActive⟩ : EWorld K1 K2) rel (some .tgt) =
        .ok ⟨w.state1, s2', w.isActive⟩ := by
    intro s2'
    unfold updateEntanglement
    split
    · rfl
    · rw [if_pos rfl]
  refine ⟨hupd w.state2, rfl, ?_, ?_⟩
  · intro s2' h
    unfold EWorld.normalizeTarget
    rw [h]
    exact hupd s2'
  · intro r h
    unfold EWorld.collapseTarget at h
    cases hct : w.state2.collapseTo v2 "manual-collapse" none with
    | error e =>
      rw [hct] at h
      simp at h
    | ok s2' =>
      rw [hct] at h
      simp only [Except.ok.injEq] at h
      rw [← h]
      rfl

/-- Witness for C10 at a concrete two-state world. -/
theorem C10_witness :
    ∃ (r : EWorld ℕ String),
      EWorld.normalizeTarget
        (⟨⟨[(0, ⟨1, 0⟩)], true, some 0, []⟩, ⟨[("B", ⟨1, 0⟩)], true, some "B", []⟩, true⟩ :
          EWorld ℕ String) (fun _ => some "A") =
        .ok ⟨⟨[(0, ⟨1, 0⟩)], true, some 0, []⟩, ⟨[("B", ⟨1, 0⟩)], true, some "B", []⟩, true⟩ ∧
      EWorld.collapseTarget
        (⟨⟨[(0, ⟨1, 0⟩)], true, some 0, []⟩, ⟨[("B", ⟨1, 0⟩)], true, some "B", []⟩, true⟩ :
          EWorld ℕ String) (fun _ => some "A") "B" = .ok r ∧
      r.state1 = ⟨[(0, ⟨1, 0⟩)], true, some 0, []⟩ := by
  have hthm := C10_propagation_is_one_directional
    (⟨⟨[(0, ⟨1, 0⟩)], true, some 0, []⟩, ⟨[("B", ⟨1, 0⟩)], true, some "B", []⟩, true⟩ :
      EWorld ℕ String) (fun _ => some "A") "B"
  have hnorm := hthm.2.2.1 ⟨[("B", ⟨1, 0⟩)], true, some "B", []⟩
    (normalize_single_one "B" true (some "B") [])
  have hct : QuantumState.collapseTo
      (⟨[("B", ⟨1, 0⟩)], true, some "B", []⟩ : QuantumState String) "B" "manual-collapse" none =
      .ok ⟨[("B", ⟨1, 0⟩)], true, some "B",
        [⟨"B", "manual-collapse",
          QuantumState.getProbabilities (⟨[("B", ⟨1, 0⟩)], true, some "B", []⟩ : QuantumState String)⟩]⟩ := by
    rw [QuantumState.collapseTo]
    rw [if_pos (by simp [mapGet])]
    rfl
  have hcoll : EWorld.collapseTarget
      (⟨⟨[(0, ⟨1, 0⟩)], true, some 0, []⟩, ⟨[("B", ⟨1, 0⟩)], true, some "B", []⟩, true⟩ :
        EWorld ℕ String) (fun _ => some "A") "B" =
      .ok ⟨⟨[(0, ⟨1, 0⟩)], true, some 0, []⟩,
        ⟨[("B", ⟨1, 0⟩)], true, some "B",
          [⟨"B", "manual-collapse",
            QuantumState.getProbabilities (⟨[("B", ⟨1, 0⟩)], true, some "B", []⟩ : QuantumState String)⟩]⟩,
        true⟩ := by
    unfold EWorld.collapseTarget
    rw [hct]
    rfl
  exact ⟨_, hnorm, hcoll, hthm.2.2.2 _ hcoll⟩

lemma construct_collapsed_pair_eval :
    QuantumState.construct [((0 : ℕ), (⟨1, 0⟩ : Complex)), (1, ⟨0, 0⟩)] =
      .ok ⟨[(0, ⟨1, 0⟩)], true, some 0, []⟩ := by
  have hacc : accumulateBasis [((0 : ℕ), (⟨1, 0⟩ : Complex)), (1, ⟨0, 0⟩)] =
      [(0, ⟨1, 0⟩), (1, ⟨0, 0⟩)] := by
    simp [accumulateBasis, mapSet, mapGet, Complex.add, Complex.zero]
  have h1 : ¬ ((⟨1, 0⟩ : Complex)).magnitude < AMPLITUDE_PRUNE_EPSILON := by
    rw [Complex.magnitude_of_real, AMPLITUDE_PRUNE_EPSILON]
    norm_num
  have h0 : ((⟨0, 0⟩ : Complex)).magnitude < AMPLITUDE_PRUNE_EPSILON := by
    rw [Complex.magnitude_of_real, AMPLITUDE_PRUNE_EPSILON]
    norm_num
  have hpf : pruneFilter [((0 : ℕ), (⟨1, 0⟩ : Complex)), (1, ⟨0, 0⟩)] = [(0, ⟨1, 0⟩)] := by
    simp [pruneFilter, h1, h0]
  have hprune : pruneNearZeroAmplitudes [((0 : ℕ), (⟨1, 0⟩ : Complex)), (1, ⟨0, 0⟩)] =
      .ok [(0, ⟨1, 0⟩)] := by
    simp only [pruneNearZeroAmplitudes, hpf]
    rw [if_neg (by simp)]
  unfold QuantumState.construct
  rw [if_neg (by simp), hacc, hprune]
  dsimp only
  rw [normalize_single_one]

/-- C3: a source `{0 ↦ (1,0), 1 ↦ (0,0)}` is already classical after pruning
(construction collapses it to 0); correlating it to any target through
`0 ↦ "A"` force-collapses the target to `"A"` with probability 1 at
correlation setup, and measuring the source returns 0 leaving the world
unchanged — all without the target's own `measure()` being invoked (the
world-level measurement only measures the source).  In general, when a
collapsed source propagates and the mapped key is absent from the target's
basis, the key is injected as the sole deterministic entry instead of the
operation failing. -/
theorem C3_entanglement_cascade {K1 K2 : Type} [DecidableEq K1] [DecidableEq K2] :
    (∀ (w : EWorld K1 K2) (rel : K1 → Option K2) (tv : K2),
      w.isActive = true → w.state1.isCollapsed = true →
      w.state1.collapsedValue.bind rel = some tv →
      (mapGet w.state2.basis tv).isSome = false →
      updateEntanglement w rel none =
        .ok { w with state2 := ⟨[(tv, ⟨1, 0⟩)], true, some tv,
          w.state2.measurementHistory ++ [⟨tv, "entanglement-collapse", []⟩]⟩ }) ∧
    QuantumState.construct [((0 : ℕ), (⟨1, 0⟩ : Complex)), (1, ⟨0, 0⟩)] =
      .ok ⟨[(0, ⟨1, 0⟩)], true, some 0, []⟩ ∧
    (∀ t : QuantumState String, ∃ w' : EWorld ℕ String,
      entangleConstruct (⟨[(0, ⟨1, 0⟩)], true, some 0, []⟩ : QuantumState ℕ) t
        (fun n => if n = 0 then some "A" else none) = .ok w' ∧
      w'.state1 = ⟨[(0, ⟨1, 0⟩)], true, some 0, []⟩ ∧
      w'.state2.basis = [("A", ⟨1, 0⟩)] ∧
      w'.state2.isCollapsed = true ∧ w'.state2.collapsedValue = some "A" ∧
      (w'.state2.getAmplitude "A").magnitudeSquared = 1 ∧
      (∀ st cur, EWorld.measureSource w' (fun n => if n = 0 then some "A" else none) st cur =
        .ok (some 0, w', cur))) := by
  refine ⟨?_, construct_collapsed_pair_eval, ?_⟩
  · intro w rel tv hact hcol hbind habs
    unfold updateEntanglement
    rw [if_neg (by simp [hact]), if_neg (by simp), if_pos hcol, hbind]
    dsimp only
    unfold collapseState2
    rw [if_neg (by simp [habs])]
  · intro t
    have hstep : entangleConstruct (⟨[(0, ⟨1, 0⟩)], true, some 0, []⟩ : QuantumState ℕ) t
        (fun n => if n = 0 then some "A" else none) =
        .ok (collapseState2
          (⟨⟨[(0, ⟨1, 0⟩)], true, some 0, []⟩, t, true⟩ : EWorld ℕ String) "A") := by
      unfold entangleConstruct updateEntanglement
      rw [if_neg (by simp), if_neg (by simp), if_pos rfl]
      rfl
    by_cases hmem : (mapGet t.basis "A").isSome
    · have hct : QuantumState.collapseTo t "A" "entanglement-collapse" none =
          .ok ⟨[("A", ⟨1, 0⟩)], true, some "A",
            t.measurementHistory ++ [⟨"A", "entanglement-collapse", t.getProbabilities⟩]⟩ := by
        rw [QuantumState.collapseTo]
        rw [if_pos hmem]
        rfl
      have hcoll : collapseState2
          (⟨⟨[(0, ⟨1, 0⟩)], true, some 0, []⟩, t, true⟩ : EWorld ℕ String) "A" =
          ⟨⟨[(0, ⟨1, 0⟩)], true, some 0, []⟩,
            ⟨[("A", ⟨1, 0⟩)], true, some "A",
              t.measurementHistory ++ [⟨"A", "entanglement-collapse", t.getProbabilities⟩]⟩,
            true⟩ := by
        unfold collapseState2
        rw [if_pos hmem, hct]
      refine ⟨_, by rw [hstep, hcoll], rfl, rfl, rfl, rfl, ?_, ?_⟩
      · simp [QuantumState.getAmplitude, mapGet, Complex.magnitudeSquared]
      · intro st cur
        rfl
    · have hcoll : collapseState2
          (⟨⟨[(0, ⟨1, 0⟩)], true, some 0, []⟩, t, true⟩ : EWorld ℕ String) "A" =
          ⟨⟨[(0, ⟨1, 0⟩)], true, some 0, []⟩,
            ⟨[("A", ⟨1, 0⟩)], true, some "A",
              t.measurementHistory ++ [⟨"A", "entanglement-collapse", []⟩]⟩,
            true⟩ := by
        unfold collapseState2
        rw [if_neg hmem]
      refine ⟨_, by rw [hstep, hcoll], rfl, rfl, rfl, rfl, ?_, ?_⟩
      · simp [QuantumState.getAmplitude, mapGet, Complex.magnitudeSquared]
      · intro st cur
        rfl

/-- Witness for C3: the general injection clause at a concrete world whose
target lacks the mapped key, and the cascade scenario at a concrete target. -/
theorem C3_witness :
    updateEntanglement
      (⟨⟨[(0, ⟨1, 0⟩)], true, some 0, []⟩, ⟨[("B", ⟨1, 0⟩)], true, some "B", []⟩, true⟩ :
        EWorld ℕ String) (fun n => if n = 0 then some "A" else none) none =
      .ok ⟨⟨[(0, ⟨1, 0⟩)], true, some 0, []⟩,
        ⟨[("A", ⟨1, 0⟩)], true, some "A", [⟨"A", "entanglement-collapse", []⟩]⟩, true⟩ ∧
    ∃ w' : EWorld ℕ String,
      entangleConstruct (⟨[(0, ⟨1, 0⟩)], true, some 0, []⟩ : QuantumState ℕ)
        (⟨[("B", ⟨1, 0⟩)], true, some "B", []⟩ : QuantumState String)
        (fun n => if n = 0 then some "A" else none) = .ok w' ∧
      w'.state2.isCollapsed = true ∧ w'.state2.collapsedValue = some "A" := by
  have hthm := @C3_entanglement_cascade ℕ String _ _
  constructor
  · exact hthm.1
      (⟨⟨[(0, ⟨1, 0⟩)], true, some 0, []⟩, ⟨[("B", ⟨1, 0⟩)], true, some "B", []⟩, true⟩ :
        EWorld ℕ String) (fun n => if n = 0 then some "A" else none) "A"
      rfl rfl rfl (by simp [mapGet])
  · obtain ⟨w', h1, _, _, h4, h5, _, _⟩ :=
      hthm.2.2 (⟨[("B", ⟨1, 0⟩)], true, some "B", []⟩ : QuantumState String)
    exact ⟨w', h1, h4, h5⟩

lemma construct_pair_real (v0 v1 : K) (x y : ℝ) (hne : v0 ≠ v1)
    (hx : AMPLITUDE_PRUNE_EPSILON ≤ |x|) (hy : AMPLITUDE_PRUNE_EPSILON ≤ |y|)
    (hT : NORMALIZATION_EPSILON < x ^ 2 + y ^ 2)
    (hx2 : ¬ |x| * (1 / Real.sqrt (x ^ 2 + y ^ 2)) < AMPLITUDE_PRUNE_EPSILON)
    (hy2 : ¬ |y| * (1 / Real.sqrt (x ^ 2 + y ^ 2)) < AMPLITUDE_PRUNE_EPSILON) :
    QuantumState.construct [(v0, ⟨x, 0⟩), (v1, ⟨y, 0⟩)] =
      .ok ⟨[(v0, ⟨x * (1 / Real.sqrt (x ^ 2 + y ^ 2)), 0⟩),
            (v1, ⟨y * (1 / Real.sqrt (x ^ 2 + y ^ 2)), 0⟩)], false, none, []⟩ := by
  have hTpos : (0 : ℝ) < x ^ 2 + y ^ 2 := by
    have : (0 : ℝ) < NORMALIZATION_EPSILON := by
      rw [NORMALIZATION_EPSILON]
      norm_num
    linarith
  have hcpos : (0 : ℝ) < 1 / Real.sqrt (x ^ 2 + y ^ 2) := by
    have := Real.sqrt_pos.mpr hTpos
    positivity
  have hacc : accumulateBasis [(v0, (⟨x, 0⟩ : Complex)), (v1, ⟨y, 0⟩)] =
      [(v0, ⟨x, 0⟩), (v1, ⟨y, 0⟩)] := by
    simp [accumulateBasis, mapSet, mapGet, hne, Ne.symm hne, Complex.add, Complex.zero]
  have kx : ¬ ((⟨x, 0⟩ : Complex)).magnitude < AMPLITUDE_PRUNE_EPSILON := by
    rw [Complex.magnitude_of_real]
    exact not_lt.mpr hx
  have ky : ¬ ((⟨y, 0⟩ : Complex)).magnitude < AMPLITUDE_PRUNE_EPSILON := by
    rw [Complex.magnitude_of_real]
    exact not_lt.mpr hy
  have hpf : pruneFilter [(v0, (⟨x, 0⟩ : Complex)), (v1, ⟨y, 0⟩)] =
      [(v0, ⟨x, 0⟩), (v1, ⟨y, 0⟩)] := by
    simp [pruneFilter, kx, ky]
  have hprune : pruneNearZeroAmplitudes [(v0, (⟨x, 0⟩ : Complex)), (v1, ⟨y, 0⟩)] =
      .ok [(v0, ⟨x, 0⟩), (v1, ⟨y, 0⟩)] := by
    simp only [pruneNearZeroAmplitudes, hpf]
    rw [if_neg (by simp)]
  have htot : sumMagnitudeSquared [(v0, (⟨x, 0⟩ : Complex)), (v1, ⟨y, 0⟩)] = x ^ 2 + y ^ 2 := by
    simp only [sumMagnitudeSquared, List.foldl, Complex.magnitudeSquared]
    ring
  have kx2 : ¬ ((⟨x * (1 / Real.sqrt (x ^ 2 + y ^ 2)), 0⟩ : Complex)).magnitude <
      AMPLITUDE_PRUNE_EPSILON := by
    rw [Complex.magnitude_of_real, abs_mul, abs_of_pos hcpos]
    exact hx2
  have ky2 : ¬ ((⟨y * (1 / Real.sqrt (x ^ 2 + y ^ 2)), 0⟩ : Complex)).magnitude <
      AMPLITUDE_PRUNE_EPSILON := by
    rw [Complex.magnitude_of_real, abs_mul, abs_of_pos hcpos]
    exact hy2
  have hnorm : QuantumState.normalize
      (⟨[(v0, ⟨x, 0⟩), (v1, ⟨y, 0⟩)], false, none, []⟩ : QuantumState K) =
      .ok ⟨[(v0, ⟨x * (1 / Real.sqrt (x ^ 2 + y ^ 2)), 0⟩),
            (v1, ⟨y * (1 / Real.sqrt (x ^ 2 + y ^ 2)), 0⟩)], false, none, []⟩ := by
    simp only [QuantumState.normalize]
    rw [htot, if_neg (not_le.mpr hT)]
    have hscale : List.map
        (fun p : K × Complex => (p.1, p.2.scale (1 / Real.sqrt (x ^ 2 + y ^ 2))))
        [(v0, ⟨x, 0⟩), (v1, ⟨y, 0⟩)] =
        [(v0, ⟨x * (1 / Real.sqrt (x ^ 2 + y ^ 2)), 0⟩),
         (v1, ⟨y * (1 / Real.sqrt (x ^ 2 + y ^ 2)), 0⟩)] := by
      simp [Complex.scale]
    rw [hscale]
    rw [pruneFilter_keep (by
      intro p hp
      simp only [List.mem_cons, List.mem_singleton, List.not_mem_nil, or_false] at hp
      rcases hp with hp | hp <;> subst hp
      · exact kx2
      · exact ky2)]
    rw [if_neg (by simp)]
    rfl
  unfold QuantumState.construct
  rw [if_neg (by simp), hacc, hprune]
  dsimp only
  rw [hnorm]

lemma construct_single_pos (v : K) (x : ℝ) (hx : 0 < x)
    (hbig : AMPLITUDE_PRUNE_EPSILON ≤ x) (hT : NORMALIZATION_EPSILON < x ^ 2) :
    QuantumState.construct [(v, ⟨x, 0⟩)] = .ok ⟨[(v, ⟨1, 0⟩)], true, some v, []⟩ := by
  have hacc : accumulateBasis [(v, (⟨x, 0⟩ : Complex))] = [(v, ⟨x, 0⟩)] := by
    simp [accumulateBasis, mapSet, mapGet, Complex.add, Complex.zero]
  have kx : ¬ ((⟨x, 0⟩ : Complex)).magnitude < AMPLITUDE_PRUNE_EPSILON := by
    rw [Complex.magnitude_of_real, abs_of_pos hx]
    exact not_lt.mpr hbig
  have hpf : pruneFilter [(v, (⟨x, 0⟩ : Complex))] = [(v, ⟨x, 0⟩)] := by
    simp [pruneFilter, kx]
  have hprune : pruneNearZeroAmplitudes [(v, (⟨x, 0⟩ : Complex))] = .ok [(v, ⟨x, 0⟩)] := by
    simp only [pruneNearZeroAmplitudes, hpf]
    rw [if_neg (by simp)]
  have htot : sumMagnitudeSquared [(v, (⟨x, 0⟩ : Complex))] = x ^ 2 := by
    simp only [sumMagnitudeSquared, List.foldl, Complex.magnitudeSquared]
    ring
  have hnorm : QuantumState.normalize (⟨[(v, ⟨x, 0⟩)], false, none, []⟩ : QuantumState K) =
      .ok ⟨[(v, ⟨1, 0⟩)], true, some v, []⟩ := by
    simp only [QuantumState.normalize]
    rw [htot, if_neg (not_le.mpr hT), Real.sqrt_sq hx.le]
    have hscale : List.map (fun p : K × Complex => (p.1, p.2.scale (1 / x)))
        [(v, ⟨x, 0⟩)] = [(v, ⟨1, 0⟩)] := by
      simp [Complex.scale]
      field_simp
    rw [hscale]
    have hker : ∀ p ∈ [(v, (⟨1, 0⟩ : Complex))], ¬ p.2.magnitude < AMPLITUDE_PRUNE_EPSILON := by
      intro p hp
      simp only [List.mem_singleton] at hp
      subst hp
      rw [Complex.magnitude_of_real, AMPLITUDE_PRUNE_EPSILON]
      norm_num
    rw [pruneFilter_keep hker, if_neg (by simp)]
    have hflags : updateCollapsedFlags [(v, (⟨1, 0⟩ : Complex))] = (true, some v) := by
      rw [updateCollapsedFlags]
      rw [if_pos]
      constructor <;> norm_num
    rw [hflags]
  unfold QuantumState.construct
  rw [if_neg (by simp), hacc, hprune]
  dsimp only
  rw [hnorm]

/-- C4: `interfere` with default uniform weights satisfies both reference
cases.  Destructive: the two constructed 2-outcome states with amplitudes
`{A:(1,0),B:(1,0)}` and `{A:(-1,0),B:(1,0)}` interfere to probability 0 at
`A` (in fact `A` is pruned from the basis) and probability 1 at `B`.
Constructive: two single-outcome states `{X:(1,0)}` interfere to
probability 1 at `X`. -/
theorem C4_interference_reference_cases :
    (∃ sA sB sC : QuantumState String,
      QuantumState.construct [("A", ⟨1, 0⟩), ("B", ⟨1, 0⟩)] = .ok sA ∧
      QuantumState.construct [("A", ⟨-1, 0⟩), ("B", ⟨1, 0⟩)] = .ok sB ∧
      Interference.interfere [sA, sB] none = .ok sC ∧
      (sC.getAmplitude "A").magnitudeSquared = 0 ∧
      (sC.getAmplitude "B").magnitudeSquared = 1 ∧
      mapGet sC.basis "A" = none) ∧
    (∃ sX sY sZ : QuantumState String,
      QuantumState.construct [("X", ⟨1, 0⟩)] = .ok sX ∧
      QuantumState.construct [("X", ⟨1, 0⟩)] = .ok sY ∧
      Interference.interfere [sX, sY] none = .ok sZ ∧
      (sZ.getAmplitude "X").magnitudeSquared = 1) := by
  have hs2pos : (0 : ℝ) < Real.sqrt 2 := Real.sqrt_pos.mpr (by norm_num)
  have hss : Real.sqrt 2 * Real.sqrt 2 = 2 := Real.mul_self_sqrt (by norm_num)
  have hinv_ge : (1 : ℝ) / 2 ≤ 1 / Real.sqrt 2 := by
    rw [div_le_div_iff (by norm_num) hs2pos]
    nlinarith
  have heps_half : AMPLITUDE_PRUNE_EPSILON ≤ (1 : ℝ) / 2 := by
    rw [AMPLITUDE_PRUNE_EPSILON]
    norm_num
  have hpost : ¬ (1 : ℝ) * (1 / Real.sqrt 2) < AMPLITUDE_PRUNE_EPSILON := by
    rw [one_mul]
    exact not_lt.mpr (le_trans heps_half hinv_ge)
  have h12 : ((1 : ℝ) ^ 2 + 1 ^ 2) = 2 := by norm_num
  have h12n : (((-1) : ℝ) ^ 2 + 1 ^ 2) = 2 := by norm_num
  have hsA := construct_pair_real "A" "B" (1 : ℝ) 1 (by simp)
    (by rw [abs_one, AMPLITUDE_PRUNE_EPSILON]; norm_num)
    (by rw [abs_one, AMPLITUDE_PRUNE_EPSILON]; norm_num)
    (by rw [NORMALIZATION_EPSILON]; norm_num)
    (by rw [h12, abs_one]; exact hpost)
    (by rw [h12, abs_one]; exact hpost)
  rw [h12] at hsA
  simp only [one_mul] at hsA
  have hsB := construct_pair_real "A" "B" ((-1) : ℝ) 1 (by simp)
    (by rw [abs_neg, abs_one, AMPLITUDE_PRUNE_EPSILON]; norm_num)
    (by rw [abs_one, AMPLITUDE_PRUNE_EPSILON]; norm_num)
    (by rw [NORMALIZATION_EPSILON]; norm_num)
    (by rw [h12n, abs_neg, abs_one]; exact hpost)
    (by rw [h12n, abs_one]; exact hpost)
  rw [h12n] at hsB
  simp only [one_mul, neg_mul] at hsB
  constructor
  · refine ⟨⟨[("A", ⟨1 / Real.sqrt 2, 0⟩), ("B", ⟨1 / Real.sqrt 2, 0⟩)], false, none, []⟩,
      ⟨[("A", ⟨-(1 / Real.sqrt 2), 0⟩), ("B", ⟨1 / Real.sqrt 2, 0⟩)], false, none, []⟩,
      ⟨[("B", ⟨1, 0⟩)], true, some "B", []⟩, hsA, hsB, ?_, ?_, ?_, ?_⟩
    · have hw : resolveWeights
          ([(⟨[("A", ⟨1 / Real.sqrt 2, 0⟩), ("B", ⟨1 / Real.sqrt 2, 0⟩)], false, none, []⟩ :
              QuantumState String),
            ⟨[("A", ⟨-(1 / Real.sqrt 2), 0⟩), ("B", ⟨1 / Real.sqrt 2, 0⟩)], false, none, []⟩] :
            List (QuantumState String)).length none =
          .ok [1 / Real.sqrt 2, 1 / Real.sqrt 2] := by
        simp [resolveWeights, List.replicate]
      have huv : unionValues
          [(⟨[("A", ⟨1 / Real.sqrt 2, 0⟩), ("B", ⟨1 / Real.sqrt 2, 0⟩)], false, none, []⟩ :
              QuantumState String),
            ⟨[("A", ⟨-(1 / Real.sqrt 2), 0⟩), ("B", ⟨1 / Real.sqrt 2, 0⟩)], false, none, []⟩] =
          ["A", "B"] := by
        simp [unionValues]
      have htA : interfereTotal
          [(⟨[("A", ⟨1 / Real.sqrt 2, 0⟩), ("B", ⟨1 / Real.sqrt 2, 0⟩)], false, none, []⟩ :
              QuantumState String),
            ⟨[("A", ⟨-(1 / Real.sqrt 2), 0⟩), ("B", ⟨1 / Real.sqrt 2, 0⟩)], false, none, []⟩]
          [1 / Real.sqrt 2, 1 / Real.sqrt 2] "A" = ⟨0, 0⟩ := by
        simp [interfereTotal, QuantumState.getAmplitude, mapGet, Complex.scale,
          Complex.add, Complex.zero, Complex.mk.injEq]
      have htB : interfereTotal
          [(⟨[("A", ⟨1 / Real.sqrt 2, 0⟩), ("B", ⟨1 / Real.sqrt 2, 0⟩)], false, none, []⟩ :
              QuantumState String),
            ⟨[("A", ⟨-(1 / Real.sqrt 2), 0⟩), ("B", ⟨1 / Real.sqrt 2, 0⟩)], false, none, []⟩]
          [1 / Real.sqrt 2, 1 / Real.sqrt 2] "B" = ⟨1, 0⟩ := by
        simp [interfereTotal, QuantumState.getAmplitude, mapGet, Complex.scale,
          Complex.add, Complex.zero, Complex.mk.injEq]
        field_simp
      have hkA : interfereKeep
          [(⟨[("A", ⟨1 / Real.sqrt 2, 0⟩), ("B", ⟨1 / Real.sqrt 2, 0⟩)], false, none, []⟩ :
              QuantumState String),
            ⟨[("A", ⟨-(1 / Real.sqrt 2), 0⟩), ("B", ⟨1 / Real.sqrt 2, 0⟩)], false, none, []⟩]
          [1 / Real.sqrt 2, 1 / Real.sqrt 2] "A" = none := by
        simp only [interfereKeep]
        rw [htA]
        rw [if_neg]
        rw [Complex.magnitude_of_real, abs_zero, PRUNE_EPSILON]
        norm_num
      have hkB : interfereKeep
          [(⟨[("A", ⟨1 / Real.sqrt 2, 0⟩), ("B", ⟨1 / Real.sqrt 2, 0⟩)], false, none, []⟩ :
              QuantumState String),
            ⟨[("A", ⟨-(1 / Real.sqrt 2), 0⟩), ("B", ⟨1 / Real.sqrt 2, 0⟩)], false, none, []⟩]
          [1 / Real.sqrt 2, 1 / Real.sqrt 2] "B" = some ("B", ⟨1, 0⟩) := by
        simp only [interfereKeep]
        rw [htB]
        rw [if_pos]
        rw [Complex.magnitude_of_real, abs_one, PRUNE_EPSILON]
        norm_num
      unfold Interference.interfere
      rw [if_neg (by simp), hw]
      dsimp only
      rw [huv]
      simp only [List.filterMap_cons, List.filterMap_nil, hkA, hkB]
      rw [if_neg (by simp)]
      exact construct_single_one "B"
    · simp [QuantumState.getAmplitude, mapGet, Complex.magnitudeSquared, Complex.zero]
    · simp [QuantumState.getAmplitude, mapGet, Complex.magnitudeSquared]
    · simp [mapGet]
  · have hone : Real.sqrt 1 ≤ Real.sqrt 2 := Real.sqrt_le_sqrt (by norm_num)
    rw [Real.sqrt_one] at hone
    have htX : interfereTotal
        [(⟨[("X", ⟨1, 0⟩)], true, some "X", []⟩ : QuantumState String),
          ⟨[("X", ⟨1, 0⟩)], true, some "X", []⟩]
        [1 / Real.sqrt 2, 1 / Real.sqrt 2] "X" = ⟨Real.sqrt 2, 0⟩ := by
      simp [interfereTotal, QuantumState.getAmplitude, mapGet, Complex.scale,
        Complex.add, Complex.zero, Complex.mk.injEq]
      field_simp
      nlinarith [hss]
    have hkX : interfereKeep
        [(⟨[("X", ⟨1, 0⟩)], true, some "X", []⟩ : QuantumState String),
          ⟨[("X", ⟨1, 0⟩)], true, some "X", []⟩]
        [1 / Real.sqrt 2, 1 / Real.sqrt 2] "X" = some ("X", ⟨Real.sqrt 2, 0⟩) := by
      simp only [interfereKeep]
      rw [htX]
      rw [if_pos]
      rw [Complex.magnitude_of_real, abs_of_pos hs2pos, PRUNE_EPSILON]
      calc (1 : ℝ) / 10 ^ 12 < 1 := by norm_num
        _ ≤ Real.sqrt 2 := hone
    have hw : resolveWeights
        ([(⟨[("X", ⟨1, 0⟩)], true, some "X", []⟩ : QuantumState String),
          ⟨[("X", ⟨1, 0⟩)], true, some "X", []⟩] : List (QuantumState String)).length none =
        .ok [1 / Real.sqrt 2, 1 / Real.sqrt 2] := by
      simp [resolveWeights, List.replicate]
    have huv : unionValues
        [(⟨[("X", ⟨1, 0⟩)], true, some "X", []⟩ : QuantumState String),
          ⟨[("X", ⟨1, 0⟩)], true, some "X", []⟩] = ["X"] := by
      simp [unionValues]
    refine ⟨⟨[("X", ⟨1, 0⟩)], true, some "X", []⟩, ⟨[("X", ⟨1, 0⟩)], true, some "X", []⟩,
      ⟨[("X", ⟨1, 0⟩)], true, some "X", []⟩,
      construct_single_one "X", construct_single_one "X", ?_, ?_⟩
    · unfold Interference.interfere
      rw [if_neg (by simp), hw]
      dsimp only
      rw [huv]
      simp only [List.filterMap_cons, List.filterMap_nil, hkX]
      rw [if_neg (by simp)]
      exact construct_single_pos "X" (Real.sqrt 2) hs2pos
        (le_trans (by rw [AMPLITUDE_PRUNE_EPSILON]; norm_num) hone)
        (by rw [Real.sq_sqrt (by norm_num : (0:ℝ) ≤ 2), NORMALIZATION_EPSILON]; norm_num)
    · simp [QuantumState.getAmplitude, mapGet, Complex.magnitudeSquared]

/-- C6: the `quantumIf` weighting law on the reference case.  For the
condition Superposition `{true: √0.7, false: √0.3}` (itself a legitimate
constructor output, last conjunct) with a then-branch returning the plain
value `"then"` and an else-branch returning `"else"`, each condition outcome
routes through the branch matching its truthiness, branch amplitudes are
multiplied by the condition amplitude and merged per result value, and the
resulting probabilities are exactly `{"then": 0.7, "else": 0.3}` (hence
within `1e-9`). -/
theorem C6_quantumIf_weighting_law :
    ∃ s : QuantumState String,
      QuantumConditionals.quantumIf (fun b => b)
        (⟨[(true, ⟨Real.sqrt (7 / 10), 0⟩), (false, ⟨Real.sqrt (3 / 10), 0⟩)], false, none, []⟩ :
          QuantumState Bool)
        (fun _ => .value "then") (fun _ => .value "else") = .ok s ∧
      s.getProbabilities = [("then", 7 / 10), ("else", 3 / 10)] ∧
      |(s.getAmplitude "then").magnitudeSquared - 7 / 10| ≤ 1 / 10 ^ 9 ∧
      |(s.getAmplitude "else").magnitudeSquared - 3 / 10| ≤ 1 / 10 ^ 9 ∧
      QuantumState.construct
        [((true : Bool), (⟨Real.sqrt (7 / 10), 0⟩ : Complex)), (false, ⟨Real.sqrt (3 / 10), 0⟩)] =
        .ok ⟨[(true, ⟨Real.sqrt (7 / 10), 0⟩), (false, ⟨Real.sqrt (3 / 10), 0⟩)],
          false, none, []⟩ := by
  have hx0 : (0 : ℝ) ≤ Real.sqrt (7 / 10) := Real.sqrt_nonneg _
  have hy0 : (0 : ℝ) ≤ Real.sqrt (3 / 10) := Real.sqrt_nonneg _
  have hxx : Real.sqrt (7 / 10) ^ 2 = 7 / 10 := Real.sq_sqrt (by norm_num)
  have hyy : Real.sqrt (3 / 10) ^ 2 = 3 / 10 := Real.sq_sqrt (by norm_num)
  have hxm : Real.sqrt (7 / 10) * Real.sqrt (7 / 10) = 7 / 10 :=
    Real.mul_self_sqrt (by norm_num)
  have hym : Real.sqrt (3 / 10) * Real.sqrt (3 / 10) = 3 / 10 :=
    Real.mul_self_sqrt (by norm_num)
  have hT1 : Real.sqrt (7 / 10) ^ 2 + Real.sqrt (3 / 10) ^ 2 = 1 := by
    rw [hxx, hyy]
    norm_num
  have hsq1 : Real.sqrt (Real.sqrt (7 / 10) ^ 2 + Real.sqrt (3 / 10) ^ 2) = 1 := by
    rw [hT1, Real.sqrt_one]
  have hepsx : AMPLITUDE_PRUNE_EPSILON ≤ |Real.sqrt (7 / 10)| := by
    rw [abs_of_nonneg hx0]
    refine (Real.le_sqrt ?_ ?_).mpr ?_ <;> norm_num [AMPLITUDE_PRUNE_EPSILON]
  have hepsy : AMPLITUDE_PRUNE_EPSILON ≤ |Real.sqrt (3 / 10)| := by
    rw [abs_of_nonneg hy0]
    refine (Real.le_sqrt ?_ ?_).mpr ?_ <;> norm_num [AMPLITUDE_PRUNE_EPSILON]
  have hTn : NORMALIZATION_EPSILON < Real.sqrt (7 / 10) ^ 2 + Real.sqrt (3 / 10) ^ 2 := by
    rw [hT1, NORMALIZATION_EPSILON]
    norm_num
  have hpostx : ¬ |Real.sqrt (7 / 10)| *
      (1 / Real.sqrt (Real.sqrt (7 / 10) ^ 2 + Real.sqrt (3 / 10) ^ 2)) <
      AMPLITUDE_PRUNE_EPSILON := by
    rw [hsq1]
    have hone : |Real.sqrt (7 / 10)| * (1 / (1 : ℝ)) = |Real.sqrt (7 / 10)| := by norm_num
    rw [hone]
    exact not_lt.mpr hepsx
  have hposty : ¬ |Real.sqrt (3 / 10)| *
      (1 / Real.sqrt (Real.sqrt (7 / 10) ^ 2 + Real.sqrt (3 / 10) ^ 2)) <
      AMPLITUDE_PRUNE_EPSILON := by
    rw [hsq1]
    have hone : |Real.sqrt (3 / 10)| * (1 / (1 : ℝ)) = |Real.sqrt (3 / 10)| := by norm_num
    rw [hone]
    exact not_lt.mpr hepsy
  have hcond := construct_pair_real (true : Bool) false (Real.sqrt (7 / 10))
    (Real.sqrt (3 / 10)) (by simp) hepsx hepsy hTn hpostx hposty
  rw [hsq1] at hcond
  simp only [one_div_one, mul_one] at hcond
  have hres := construct_pair_real "then" "else" (Real.sqrt (7 / 10))
    (Real.sqrt (3 / 10)) (by simp) hepsx hepsy hTn hpostx hposty
  rw [hsq1] at hres
  simp only [one_div_one, mul_one] at hres
  have hcomb : quantumIfCombined (fun b => b)
      (⟨[(true, ⟨Real.sqrt (7 / 10), 0⟩), (false, ⟨Real.sqrt (3 / 10), 0⟩)], false, none, []⟩ :
        QuantumState Bool)
      (fun _ => .value "then") (fun _ => .value "else") =
      .ok [("then", ⟨Real.sqrt (7 / 10), 0⟩), ("else", ⟨Real.sqrt (3 / 10), 0⟩)] := by
    unfold quantumIfCombined
    simp only [List.foldlM, bind, Except.bind, pure, Except.pure, coerceResultState,
      if_true, if_false, Bool.false_eq_true, construct_single_one]
    simp [mergeInto, mapSet, mapGet, Complex.multiply, Complex.add, Complex.zero,
      Except.pure]
  refine ⟨⟨[("then", ⟨Real.sqrt (7 / 10), 0⟩), ("else", ⟨Real.sqrt (3 / 10), 0⟩)],
    false, none, []⟩, ?_, ?_, ?_, ?_, hcond⟩
  · unfold QuantumConditionals.quantumIf
    simp only [bind, Except.bind]
    rw [hcomb]
    dsimp only
    unfold buildStateFromMap
    rw [if_neg (by simp)]
    exact hres
  · simp [QuantumState.getProbabilities, Complex.magnitudeSquared]
    constructor <;>
      rw [div_mul_div_comm, Real.mul_self_sqrt (by norm_num), Real.mul_self_sqrt (by norm_num)]
  · simp [QuantumState.getAmplitude, mapGet, Complex.magnitudeSquared]
    rw [div_mul_div_comm, Real.mul_self_sqrt (by norm_num), Real.mul_self_sqrt (by norm_num)]
    norm_num
  · simp [QuantumState.getAmplitude, mapGet, Complex.magnitudeSquared]
    rw [div_mul_div_comm, Real.mul_self_sqrt (by norm_num), Real.mul_self_sqrt (by norm_num)]
    norm_num

end

end QJS
